import Mathlib

/-!
The exoscale provider: networks, NICs, security groups and their rules

A shallow embedding of `exoscale/resource_network.go`, `resource_nic.go`,
`resource_security_group.go` and `resource_security_group_rule.go`.

* Go byte slices (`net.IP`, `net.IPMask`) are lists of naturals below 256; byte
  arithmetic carries an explicit `% 256`.
* A `*schema.ResourceData` is a record per resource kind; every operation takes
  the record and the state of the remote side and returns the value it returns
  in Go, the record as it leaves it, the new remote state and the list of calls
  it made through the client, in order.
* The client is a table of responders over an arbitrary remote state `W`.
-/

namespace Exoscale

/-! ## Errors -/

/-- The error values the operations return: a parse failure of the Go standard
library or of the UUID library, a `fmt.Errorf` of the provider, or an error
coming back from the remote side (`notFound` says it is the API's not-found
response). -/
inductive Error where
  | parse (kind text : String)
  | errorf (msg : String)
  | response (notFound : Bool) (msg : String)
  deriving DecidableEq, Repr

/-- What a Go call ends in: a normal return, a returned error, or a run-time
panic (an index out of range). -/
inductive Outcome (α : Type) where
  | ok (a : α)
  | error (e : Error)
  | panic
  deriving DecidableEq, Repr

deriving instance DecidableEq for Except

/-! ## The Go `net` package, as far as the provider uses it -/

/-- A `net.IP`: a byte slice (`nil` is the empty list). -/
abbrev IP := List Nat

/-- A `net.IPMask`: a byte slice. -/
abbrev IPMask := List Nat

/-- A `net.IPNet`. -/
structure IPNet where
  IP : IP
  Mask : IPMask
  deriving DecidableEq, Repr

def IPv4len : Nat := 4

def IPv6len : Nat := 16

def v4InV6Prefix : List Nat := [0, 0, 0, 0, 0, 0, 0, 0, 0, 0, 0xff, 0xff]

/-- Go `net.IPv4(a, b, c, d)`: the 16-byte form of the address. -/
def IPv4 (a b c d : Nat) : IP := v4InV6Prefix ++ [a, b, c, d]

/-- Go `net.IPv4zero`. -/
def IPv4zero : IP := IPv4 0 0 0 0

/-- Go `big` of `net/parse.go`. -/
def big : Nat := 0xFFFFFF

def isDigit (c : Char) : Bool := decide (48 ≤ c.toNat) && decide (c.toNat ≤ 57)

/-- The loop of Go `dtoi`: `n` is the number read so far, `i` the bytes consumed. -/
def dtoi.loop : List Char → Nat → Nat → Nat × Nat × Bool
  | [], n, i => if i = 0 then (0, 0, false) else (n, i, true)
  | c :: cs, n, i =>
    if isDigit c then
      let n1 := n * 10 + (c.toNat - 48)
      if n1 ≥ big then (big, i, false) else dtoi.loop cs n1 (i + 1)
    else if i = 0 then (0, 0, false) else (n, i, true)

/-- Go `dtoi`: decimal to integer; returns number, characters consumed, success. -/
def dtoi (s : List Char) : Nat × Nat × Bool := dtoi.loop s 0 0

def hexVal (c : Char) : Option Nat :=
  if 48 ≤ c.toNat ∧ c.toNat ≤ 57 then some (c.toNat - 48)
  else if 97 ≤ c.toNat ∧ c.toNat ≤ 102 then some (c.toNat - 97 + 10)
  else if 65 ≤ c.toNat ∧ c.toNat ≤ 70 then some (c.toNat - 65 + 10)
  else none

/-- The loop of Go `xtoi`. -/
def xtoi.loop : List Char → Nat → Nat → Nat × Nat × Bool
  | [], n, i => if i = 0 then (0, i, false) else (n, i, true)
  | c :: cs, n, i =>
    match hexVal c with
    | some v =>
      let n1 := n * 16 + v
      if n1 ≥ big then (0, i, false) else xtoi.loop cs n1 (i + 1)
    | none => if i = 0 then (0, i, false) else (n, i, true)

/-- Go `xtoi`: hexadecimal to integer. -/
def xtoi (s : List Char) : Nat × Nat × Bool := xtoi.loop s 0 0

/-- The loop of Go `parseIPv4`: `k` octets are still to be read, `i` is the
loop index; the result is the octets read and the rest of the text. -/
def parseIPv4.octets : Nat → Nat → List Char → Option (List Nat × List Char)
  | 0, _, s => some ([], s)
  | k + 1, i, s =>
    if s.length = 0 then none
    else
      let s1 : Option (List Char) :=
        if i > 0 then
          match s with
          | '.' :: t => some t
          | _ => none
        else some s
      match s1 with
      | none => none
      | some s1 =>
        match dtoi s1 with
        | (n, c, ok) =>
          if !ok || decide (n > 0xFF) then none
          else
            match parseIPv4.octets k (i + 1) (s1.drop c) with
            | none => none
            | some (p, rest) => some (n % 256 :: p, rest)

/-- Go `parseIPv4` (d.d.d.d); `none` is the `nil` result. -/
def parseIPv4 (s : List Char) : Option IP :=
  match parseIPv4.octets IPv4len 0 s with
  | some ([p0, p1, p2, p3], []) => some (IPv4 p0 p1 p2 p3)
  | _ => none

/-- The main loop of Go `parseIPv6`. `acc` holds the bytes `ip[0..i)` written so
far (`i = acc.length`), `ellipsis` the position of `::` if one was seen. The
result is the bytes written, the ellipsis and the unread rest of the text. -/
def parseIPv6.loop : Nat → List Nat → Option Nat → List Char →
    Option (List Nat × Option Nat × List Char)
  | 0, acc, ellipsis, s => some (acc, ellipsis, s)
  | fuel + 1, acc, ellipsis, s =>
    let i := acc.length
    if ¬ i < IPv6len then some (acc, ellipsis, s)
    else
      match xtoi s with
      | (n, c, ok) =>
        if !ok || decide (n > 0xFFFF) then none
        else if (s.drop c).head? = some '.' then
          if ellipsis = none ∧ i ≠ IPv6len - IPv4len then none
          else if i + IPv4len > IPv6len then none
          else
            match parseIPv4 s with
            | none => none
            | some ip4 => some (acc ++ ip4.drop 12, ellipsis, [])
        else
          let acc1 := acc ++ [(n / 256) % 256, n % 256]
          match s.drop c with
          | [] => some (acc1, ellipsis, [])
          | c0 :: s1 =>
            if c0 ≠ ':' ∨ s1.length = 0 then none
            else
              match s1 with
              | ':' :: s2 =>
                if ellipsis ≠ none then none
                else if s2.length = 0 then some (acc1, some (i + 2), [])
                else parseIPv6.loop fuel acc1 (some (i + 2)) s2
              | _ => parseIPv6.loop fuel acc1 ellipsis s1

/-- The tail of Go `parseIPv6`: the whole text must be used, and a short
address is completed by expanding the ellipsis with zero bytes. -/
def parseIPv6.finish : List Nat × Option Nat × List Char → Option IP
  | (acc, ellipsis, s) =>
    if s.length ≠ 0 then none
    else if acc.length < IPv6len then
      match ellipsis with
      | none => none
      | some e => some (acc.take e ++ List.replicate (IPv6len - acc.length) 0 ++ acc.drop e)
    else if ellipsis ≠ none then none
    else some acc

/-- Go `parseIPv6` without zone; `none` is the `nil` result. -/
def parseIPv6 (s : List Char) : Option IP :=
  match s with
  | ':' :: ':' :: rest =>
    if rest.length = 0 then some (List.replicate IPv6len 0)
    else (parseIPv6.loop IPv6len [] (some 0) rest).bind parseIPv6.finish
  | _ => (parseIPv6.loop IPv6len [] none s).bind parseIPv6.finish

/-- The loop of Go `net.CIDRMask`: `l` bytes are still to be written, `n` one
bits are still to be placed. -/
def CIDRMask.bytes : Nat → Nat → List Nat
  | 0, _ => []
  | l + 1, n =>
    if n ≥ 8 then 0xff :: CIDRMask.bytes l (n - 8)
    else (((0xff >>> n) ^^^ 0xff) % 256) :: CIDRMask.bytes l 0

/-- Go `net.CIDRMask(ones, bits)`; the `nil` result is the empty list. -/
def CIDRMask (ones bits : Nat) : IPMask :=
  if bits ≠ 8 * IPv4len ∧ bits ≠ 8 * IPv6len then []
  else if ones > bits then []
  else CIDRMask.bytes (bits / 8) ones

def allFF (b : List Nat) : Bool := b.all fun x => x == 0xff

/-- Go `IP.Mask(mask)`; the `nil` result is the empty list. -/
def IP.Mask (ip : IP) (mask : IPMask) : IP :=
  let mask1 : IPMask :=
    if mask.length = IPv6len ∧ ip.length = IPv4len ∧ allFF (mask.take 12) = true
    then mask.drop 12 else mask
  let ip1 : IP :=
    if mask1.length = IPv4len ∧ ip.length = IPv6len ∧ ip.take 12 = v4InV6Prefix
    then ip.drop 12 else ip
  if ip1.length ≠ mask1.length then []
  else List.zipWith (fun a b => a &&& b) ip1 mask1

def isZeros (p : List Nat) : Bool := p.all fun x => x == 0

/-- Go `IP.To4()`; `none` is the `nil` result. -/
def IP.To4 (ip : IP) : Option IP :=
  if ip.length = IPv4len then some ip
  else if ip.length = IPv6len ∧ isZeros (ip.take 10) = true ∧
      ip.getD 10 0 = 0xff ∧ ip.getD 11 0 = 0xff then some (ip.drop 12)
  else none

/-- Splits a text at its first `/` (Go `byteIndex(s, '/')`, `s[:i]`, `s[i+1:]`). -/
def splitSlash : List Char → Option (List Char × List Char)
  | [] => none
  | c :: cs =>
    if c = '/' then some ([], cs)
    else
      match splitSlash cs with
      | none => none
      | some (a, m) => some (c :: a, m)

/-- Go `net.ParseCIDR`. -/
def ParseCIDR (s : String) : Except Error (IP × IPNet) :=
  match splitSlash s.data with
  | none => .error (.parse "CIDR address" s)
  | some (addr, mask) =>
    let r : Nat × Option IP :=
      match parseIPv4 addr with
      | some ip => (IPv4len, some ip)
      | none => (IPv6len, parseIPv6 addr)
    match r.2, dtoi mask with
    | some ip, (n, i, true) =>
      if i ≠ mask.length ∨ n > 8 * r.1 then .error (.parse "CIDR address" s)
      else
        let m := CIDRMask n (8 * r.1)
        .ok (ip, { IP := ip.Mask m, Mask := m })
    | _, _ => .error (.parse "CIDR address" s)

/-- Go `net.ParseIP`. -/
def ParseIP.scan (s : List Char) : List Char → Option IP
  | [] => none
  | c :: cs =>
    if c = '.' then parseIPv4 s
    else if c = ':' then parseIPv6 s
    else ParseIP.scan s cs

def ParseIP (s : String) : Option IP := ParseIP.scan s.data s.data

/-! ## Identifiers and strings -/

def isLowerHex (c : Char) : Bool :=
  (decide (48 ≤ c.toNat) && decide (c.toNat ≤ 57)) || (decide (97 ≤ c.toNat) && decide (c.toNat ≤ 102))

/-- The canonical text of a UUID: 36 characters, `-` at positions 8, 13, 18 and
23, lower-case hexadecimal digits elsewhere. `i` is the position reached. -/
def UUID.wellFormed : Nat → List Char → Bool
  | i, [] => i == 36
  | i, c :: cs =>
    (if i = 8 ∨ i = 13 ∨ i = 18 ∨ i = 23 then c == '-' else isLowerHex c) &&
      UUID.wellFormed (i + 1) cs

/-- An `egoscale.UUID`, held as the canonical text its `String()` renders. -/
structure UUID where
  text : String
  canonical : UUID.wellFormed 0 text.data = true
  deriving DecidableEq

instance : Repr UUID := ⟨fun u _ => repr u.text⟩

/-- Go `UUID.String()`. -/
def UUID.String (u : UUID) : String := u.text

/-- The 36-character layout of a text of 32 digits: hyphens after the digits
8, 12, 16 and 20, as `UUID.String()` renders the bytes `decodeHashLike` reads. -/
def UUID.hyphenate (t : List Char) : List Char :=
  t.take 8 ++ '-' :: (t.drop 8).take 4 ++ '-' :: (t.drop 12).take 4 ++
    '-' :: (t.drop 16).take 4 ++ '-' :: t.drop 20

/-- Go `decodePlain` of the package `uuid`: a text of 32 characters is read as
32 digits, a text of 36 characters as the hyphenated form. The result is the
text in the 36-character layout, its digits not yet checked. -/
def UUID.decodePlain (t : List Char) : Option (List Char) :=
  if t.length = 32 then some (UUID.hyphenate t)
  else if t.length = 36 then some t
  else none

/-- Go `decodeBraced`: a plain text between `\x7b` and `\x7d`. -/
def UUID.decodeBraced (t : List Char) : Option (List Char) :=
  if t.head? = some (Char.ofNat 0x7b) ∧ t.getLast? = some (Char.ofNat 0x7d) then
    UUID.decodePlain (t.drop 1).dropLast
  else none

/-- Go `decodeURN`: a plain text after the prefix `urn:uuid:`. -/
def UUID.decodeURN (t : List Char) : Option (List Char) :=
  if t.take 9 = "urn:uuid:".data then UUID.decodePlain (t.drop 9) else none

/-- The switch of Go `UUID.UnmarshalText` (package `gofrs/uuid`, which
`egoscale.ParseUUID` calls through `uuid.FromString`) on the length of the
text: 32 digits, the hyphenated form (36), either of them in braces (34, 38) or
after `urn:uuid:` (41, 45). Every accepted text is ASCII, so its length in
characters is its length in bytes. -/
def UUID.UnmarshalText (t : List Char) : Option (List Char) :=
  if t.length = 32 then UUID.decodePlain t
  else if t.length = 34 ∨ t.length = 38 then UUID.decodeBraced t
  else if t.length = 36 then UUID.decodePlain t
  else if t.length = 41 ∨ t.length = 45 then UUID.decodeURN t
  else none

/-- Go `egoscale.ParseUUID`: the text is read in one of the forms of
`UUID.UnmarshalText`, its hyphens must be in place and its digits hexadecimal,
in either letter case (`hex.Decode`); the identifier renders in lower case.
Every failure is the one parse error of the text. -/
def ParseUUID (s : String) : Except Error UUID :=
  match UUID.UnmarshalText s.data with
  | none => .error (.parse "uuid" s)
  | some t =>
    if h : UUID.wellFormed 0 (String.mk (t.map Char.toLower)).data = true then
      .ok ⟨String.mk (t.map Char.toLower), h⟩
    else .error (.parse "uuid" s)

/-- Go `unicode.ToUpper`: the ASCII letters, and the two letters outside ASCII
whose upper case is an ASCII letter, the dotless i (U+0131, to `I`) and the
long s (U+017F, to `S`). The other letters outside ASCII are left as they are:
Go maps them to letters outside ASCII, so which texts have an ASCII upper case,
and which one, is as in Go. -/
def unicode.ToUpper (r : Char) : Char :=
  if r.toNat = 0x131 then 'I' else if r.toNat = 0x17F then 'S' else r.toUpper

/-- Go `unicode.ToLower`: the ASCII letters, and the two letters outside ASCII
whose lower case is an ASCII letter, the capital I with dot above (U+0130, to
`i`) and the Kelvin sign (U+212A, to `k`). The other letters outside ASCII are
left as they are, as in `unicode.ToUpper`. -/
def unicode.ToLower (r : Char) : Char :=
  if r.toNat = 0x130 then 'i' else if r.toNat = 0x212A then 'k' else r.toLower

/-- Go `strings.ToUpper`: `unicode.ToUpper` on every character. -/
def ToUpper (s : String) : String := String.mk (s.data.map unicode.ToUpper)

/-- Go `strings.ToLower`: `unicode.ToLower` on every character. -/
def ToLower (s : String) : String := String.mk (s.data.map unicode.ToLower)

/-- Go `(uint16)(x)` of an `int`. -/
def uint16 (x : Int) : Nat := (x % 65536).toNat

/-- Go `(uint8)(x)` of an `int`. -/
def uint8 (x : Int) : Nat := (x % 256).toNat

/-! ## Remote objects (package `egoscale`)

Values of library types that the provider only ever renders with `String()`
(a MAC address, the addresses of a NIC, the CIDR of a rule) are held as the
rendered text, `none` standing for a `nil` value. -/

structure Zone where
  ID : UUID
  Name : String
  deriving DecidableEq, Repr

structure NetworkOffering where
  ID : UUID
  Name : String
  SpecifyIPRanges : Bool
  deriving DecidableEq, Repr

structure ResourceTag where
  Key : String
  Value : String
  deriving DecidableEq, Repr

structure Network where
  ID : UUID
  Name : String
  DisplayText : String
  NetworkOfferingName : String
  ZoneName : String
  Tags : List ResourceTag
  deriving DecidableEq, Repr

structure ListNetworksResponse where
  Count : Nat
  Network : List Network
  deriving DecidableEq, Repr

structure Nic where
  ID : UUID
  VirtualMachineID : UUID
  NetworkID : UUID
  MACAddress : String
  IPAddress : Option String
  Netmask : Option String
  Gateway : Option String
  deriving DecidableEq, Repr

structure ListNicsResponse where
  Count : Nat
  Nic : List Nic
  deriving DecidableEq, Repr

structure VirtualMachine where
  ID : UUID
  Nic : List Nic
  deriving DecidableEq, Repr

/-- An `egoscale.EgressRule`; `egoscale.IngressRule` has the same fields and the
provider converts one into the other. -/
structure EgressRule where
  RuleID : UUID
  CIDR : Option String
  IcmpType : Nat
  IcmpCode : Nat
  StartPort : Nat
  EndPort : Nat
  Protocol : String
  SecurityGroupName : String
  Description : String
  deriving DecidableEq, Repr

abbrev IngressRule := EgressRule

structure SecurityGroup where
  ID : Option UUID
  Name : String
  Description : String
  Account : String
  EgressRule : List EgressRule
  IngressRule : List IngressRule
  deriving DecidableEq, Repr

structure UserSecurityGroup where
  Account : String
  Group : String
  deriving DecidableEq, Repr

/-- An `egoscale.CIDR`: it embeds a `net.IPNet`. -/
structure CIDR where
  IPNet : IPNet
  deriving DecidableEq, Repr

/-- Go `egoscale.ParseCIDR`. -/
def egoscale.ParseCIDR (s : String) : Except Error CIDR :=
  match Exoscale.ParseCIDR s with
  | .error err => .error err
  | .ok (_, net) => .ok ⟨net⟩

/-- Go `VirtualMachine.NicByNetworkID`: the first NIC on that network. -/
def NicByNetworkID.scan (networkID : UUID) : List Nic → Option Nic
  | [] => none
  | nic :: rest => if nic.NetworkID = networkID then some nic else NicByNetworkID.scan networkID rest

def VirtualMachine.NicByNetworkID (vm : VirtualMachine) (networkID : UUID) :
    Option Exoscale.Nic :=
  NicByNetworkID.scan networkID vm.Nic

/-! ## Commands and the client -/

structure CreateNetwork where
  Name : String
  DisplayText : String
  NetworkOfferingID : UUID
  ZoneID : UUID
  Netmask : IP
  Gateway : IP
  deriving DecidableEq, Repr

/-- The fields shared by `AuthorizeSecurityGroupIngress` and
`AuthorizeSecurityGroupEgress`. -/
structure AuthorizeSecurityGroupIngress where
  SecurityGroupID : Option UUID
  CIDRList : List CIDR
  Description : String
  Protocol : String
  EndPort : Nat
  StartPort : Nat
  IcmpType : Nat
  IcmpCode : Nat
  UserSecurityGroupList : List UserSecurityGroup
  deriving DecidableEq, Repr

inductive Command where
  | CreateNetwork (c : CreateNetwork)
  | ListNetworks (ID : UUID)
  | DeleteNetwork (ID : UUID)
  | CreateTags (ResourceType : String) (ResourceID : String) (Tags : List ResourceTag)
  | AddNicToVirtualMachine (NetworkID VirtualMachineID : UUID) (IPAddress : IP)
  | ListNics (NicID VirtualMachineID : UUID)
  | RemoveNicFromVirtualMachine (NicID VirtualMachineID : UUID)
  | AuthorizeSecurityGroupIngress (c : AuthorizeSecurityGroupIngress)
  | AuthorizeSecurityGroupEgress (c : AuthorizeSecurityGroupIngress)
  | RevokeSecurityGroupIngress (ID : UUID)
  | RevokeSecurityGroupEgress (ID : UUID)
  deriving DecidableEq, Repr

/-- The type of the response the client decodes for a command. -/
@[reducible]
def Command.response : Command → Type
  | .CreateNetwork _ => Network
  | .ListNetworks _ => ListNetworksResponse
  | .AddNicToVirtualMachine _ _ _ => VirtualMachine
  | .ListNics _ _ => ListNicsResponse
  | .RemoveNicFromVirtualMachine _ _ => VirtualMachine
  | .AuthorizeSecurityGroupIngress _ => SecurityGroup
  | .AuthorizeSecurityGroupEgress _ => SecurityGroup
  | _ => Unit

/-- One call made through the client. -/
inductive Call where
  | getZoneByName (zoneName : String)
  | getNetworkOfferingByName (networkName : String)
  | Request (c : Command)
  | BooleanRequest (c : Command)
  | Get (sg : SecurityGroup)
  deriving DecidableEq, Repr

/-- Says whether the call creates something on the remote side: a
`CreateNetwork`, an `AddNicToVirtualMachine` or an authorize command. -/
def Call.creates : Call → Bool
  | .Request (.CreateNetwork _) => true
  | .Request (.AddNicToVirtualMachine _ _ _) => true
  | .Request (.AuthorizeSecurityGroupIngress _) => true
  | .Request (.AuthorizeSecurityGroupEgress _) => true
  | _ => false

/-- The authorize command a call carries, if it is one. -/
def Call.authorize : Call → Option AuthorizeSecurityGroupIngress
  | .Request (.AuthorizeSecurityGroupIngress c) => some c
  | .Request (.AuthorizeSecurityGroupEgress c) => some c
  | _ => none

/-- The `egoscale.Client` over a remote state `W`: every method answers from the
state and moves it. -/
structure Client (W : Type) where
  RequestWithContext : W → (c : Command) → Except Error c.response × W
  BooleanRequestWithContext : W → Command → Option Error × W
  GetWithContext : W → SecurityGroup → Except Error SecurityGroup × W

/-- What an operation leaves behind: the value it returns, the record, the
remote state, and the calls it made through the client, in order. -/
structure Run (W D α : Type) where
  ret : α
  d : D
  w : W
  calls : List Call

/-- The run `r` when the calls `before` were made ahead of it. -/
def Run.after {W D α : Type} (before : List Call) (r : Run W D α) : Run W D α :=
  { r with calls := before ++ r.calls }

/-! ## Resource records (`*schema.ResourceData`) -/

/-- The identifier part of a `*schema.ResourceData`. -/
class ResourceData (D : Type) where
  Id : D → String
  SetId : D → String → D

/-- The record of an `exoscale_network`: the keys of the schema of
`networkResource` that the operations read or write (`iprange`, which none of
them touches, is left out). -/
structure NetworkData where
  Id : String
  name : String
  display_text : String
  network_offering : String
  zone : String
  tags : List (String × String)
  deriving DecidableEq, Repr

instance : ResourceData NetworkData := ⟨fun d => d.Id, fun d v => { d with Id := v }⟩

/-- The keys the schema of `networkResource` declares (lines 15-61; `tags` is
the key `addTags` adds). -/
def networkResource.Schema : List String :=
  ["name", "display_text", "network_offering", "zone", "iprange", "tags"]

/-- The text a record holds under a key: the value of a key the schema
declares with the type string, nothing for any other key. -/
def NetworkData.GetString (d : NetworkData) (key : String) : Option String :=
  if key ∈ networkResource.Schema then
    if key = "name" then some d.name
    else if key = "display_text" then some d.display_text
    else if key = "network_offering" then some d.network_offering
    else if key = "zone" then some d.zone
    else none
  else none

/-- Go `d.GetOk(key)` for a key read as a string: ok when the schema declares
the key and its value is not the zero value; a key the schema does not declare
is never ok. -/
def NetworkData.GetOk (d : NetworkData) (key : String) : Option String :=
  match d.GetString key with
  | some v => if v ≠ "" then some v else none
  | none => none

/-- The record of an `exoscale_nic`. -/
structure NicData where
  Id : String
  compute_id : String
  network_id : String
  ip_address : String
  netmask : String
  gateway : String
  mac_address : String
  deriving DecidableEq, Repr

instance : ResourceData NicData := ⟨fun d => d.Id, fun d v => { d with Id := v }⟩

/-- The record of an `exoscale_security_group`. -/
structure SecurityGroupData where
  Id : String
  name : String
  description : String
  deriving DecidableEq, Repr

instance : ResourceData SecurityGroupData := ⟨fun d => d.Id, fun d v => { d with Id := v }⟩

/-- The record of an `exoscale_security_group_rule`. The two keys read with
`GetOkExists` are optional: `none` is a key that was never set. A key read with
`GetOk` is populated when it is not the zero value. -/
structure RuleData where
  Id : String
  type : String
  security_group_id : Option String
  security_group : Option String
  description : String
  cidr : String
  protocol : String
  start_port : Int
  end_port : Int
  icmp_type : Int
  icmp_code : Int
  user_security_group_id : String
  user_security_group : String
  deriving DecidableEq, Repr

instance : ResourceData RuleData := ⟨fun d => d.Id, fun d v => { d with Id := v }⟩

/-- The record `resource.Data(nil)` makes: every key at its zero value. -/
def RuleData.empty : RuleData :=
  { Id := "", type := "", security_group_id := none, security_group := none,
    description := "", cidr := "", protocol := "", start_port := 0, end_port := 0,
    icmp_type := 0, icmp_code := 0, user_security_group_id := "", user_security_group := "" }

/-- One element of the list an importer returns, tagged with its resource type. -/
inductive Resource where
  | exoscale_security_group (d : SecurityGroupData)
  | exoscale_security_group_rule (d : RuleData)
  deriving DecidableEq, Repr

/-- The provider's `meta`: the client, and the helpers of the provider that
the operations call but that are not among the source files. -/
structure Meta (W : Type) where
  client : Client W
  /-- Modelled from the spec: `getZoneByName` is missing from the sources; it
  resolves a zone reference through the client and fails on a lookup miss. -/
  getZoneByName : W → String → Except Error Zone × W
  /-- Modelled from the spec: `getNetworkOfferingByName` is missing from the
  sources; it resolves an offering reference through the client. -/
  getNetworkOfferingByName : W → String → Except Error NetworkOffering × W
  /-- Modelled from the spec: `createTags(record, key, resourceType)` is missing
  from the sources; it yields a command, or none, or an error. -/
  createTags : NetworkData → String → String → Except Error (Option Command)

/-- Modelled from the spec: `handleNotFound` is missing from the sources; a
not-found error clears the local identifier and becomes nil, any other error is
returned unchanged. -/
def handleNotFound {D : Type} [ResourceData D] (d : D) (err : Error) : D × Option Error :=
  match err with
  | .response true _ => (ResourceData.SetId d "", none)
  | _ => (d, some err)

/-- A Go `error` as the outcome of a function that returns only an error. -/
def Outcome.ofError : Option Error → Outcome Unit
  | none => .ok ()
  | some err => .error err

/-! ## `resource_network.go` -/

/-- The tag loop of `applyNetwork`: `tags[tag.Key] = tag.Value`. -/
def applyNetwork.tags : List ResourceTag → List (String × String) → List (String × String)
  | [], tags => tags
  | tag :: rest, tags =>
    applyNetwork.tags rest (tags.filter (fun kv => kv.1 ≠ tag.Key) ++ [(tag.Key, tag.Value)])

def applyNetwork (d : NetworkData) (network : Network) : NetworkData × Option Error :=
  let d := { d with Id := network.ID.String }
  let d := { d with name := network.Name }
  let d := { d with display_text := network.DisplayText }
  let d := { d with network_offering := network.NetworkOfferingName }
  let d := { d with zone := network.ZoneName }
  let d := { d with tags := applyNetwork.tags network.Tags [] }
  (d, none)

def readNetwork {W : Type} (m : Meta W) (w : W) (d : NetworkData) :
    Run W NetworkData (Outcome Unit) :=
  match ParseUUID d.Id with
  | .error err => ⟨.error err, d, w, []⟩
  | .ok id =>
    match m.client.RequestWithContext w (.ListNetworks id) with
    | (.error err, w1) =>
      let r := handleNotFound d err
      ⟨Outcome.ofError r.2, r.1, w1, [.Request (.ListNetworks id)]⟩
    | (.ok networks, w1) =>
      if networks.Count = 0 then
        ⟨.error (.errorf ("No network found for ID: " ++ d.Id)), d, w1,
          [.Request (.ListNetworks id)]⟩
      else
        match networks.Network with
        | [] => ⟨.panic, d, w1, [.Request (.ListNetworks id)]⟩
        | network :: _ =>
          let r := applyNetwork d network
          ⟨Outcome.ofError r.2, r.1, w1, [.Request (.ListNetworks id)]⟩

/-- Lines 117-141 of `createNetwork`, the body of the `if` of line 116: the
netmask and the gateway from the text `c` of the key `cidr`. -/
def createNetwork.fromCIDR (c : String) : Outcome (IP × IP) :=
  match ParseCIDR c with
  | .error err => .error err
  | .ok (ip, ipnet) =>
    if ip.To4 = none then
      .error (.errorf ("Provided cidr " ++ c ++ " is not an IPv4 address"))
    else
      let subnetIP := ip.Mask ipnet.Mask
      match ipnet.Mask, subnetIP with
      | m0 :: m1 :: m2 :: m3 :: _, s0 :: s1 :: s2 :: s3 :: _ =>
        .ok (IPv4 m0 m1 m2 m3,
             IPv4 ((s0 + (m0 ^^^ 0xff) % 256) % 256) ((s1 + (m1 ^^^ 0xff) % 256) % 256)
                  ((s2 + (m2 ^^^ 0xff) % 256) % 256) ((s3 + (m3 ^^^ 0xff) % 256) % 256))
      | _, _ => .panic

/-- Lines 113-142 of `createNetwork`: the netmask and the gateway of the
`CreateNetwork` command, the zero address unless `d.GetOk("cidr")` is ok. -/
def createNetwork.addresses (d : NetworkData) : Outcome (IP × IP) :=
  match d.GetOk "cidr" with
  | some c => createNetwork.fromCIDR c
  | none => .ok (IPv4zero, IPv4zero)

def createNetwork {W : Type} (m : Meta W) (w : W) (d : NetworkData) :
    Run W NetworkData (Outcome Unit) :=
  let name := d.name
  let displayText := if d.display_text = "" then name else d.display_text
  match m.getZoneByName w d.zone with
  | (.error err, w1) => ⟨.error err, d, w1, [.getZoneByName d.zone]⟩
  | (.ok zone, w1) =>
    let lookups : List Call :=
      [.getZoneByName d.zone, .getNetworkOfferingByName d.network_offering]
    match m.getNetworkOfferingByName w1 d.network_offering with
    | (.error err, w2) => ⟨.error err, d, w2, lookups⟩
    | (.ok networkOffering, w2) =>
      if networkOffering.SpecifyIPRanges then
        ⟨.error (.errorf "SpecifyIPRanges is not yet supported."), d, w2, lookups⟩
      else
        match createNetwork.addresses d with
        | .error err => ⟨.error err, d, w2, lookups⟩
        | .panic => ⟨.panic, d, w2, lookups⟩
        | .ok (netmask, gateway) =>
          let req : Command := .CreateNetwork
            { Name := name, DisplayText := displayText,
              NetworkOfferingID := networkOffering.ID, ZoneID := zone.ID,
              Netmask := netmask, Gateway := gateway }
          match m.client.RequestWithContext w2 req with
          | (.error err, w3) => ⟨.error err, d, w3, lookups ++ [.Request req]⟩
          | (.ok network, w3) =>
            let d1 := { d with Id := network.ID.String }
            match m.createTags d1 "tags" "Network" with
            | .error err => ⟨.error err, d1, w3, lookups ++ [.Request req]⟩
            | .ok none => (readNetwork m w3 d1).after (lookups ++ [.Request req])
            | .ok (some cmd) =>
              match m.client.BooleanRequestWithContext w3 cmd with
              | (some err, w4) =>
                -- Attempting to destroy the freshly created network; a failure
                -- of the attempt is only logged.
                match m.client.BooleanRequestWithContext w4 (.DeleteNetwork network.ID) with
                | (_, w5) =>
                  ⟨.error err, d1, w5,
                    lookups ++ [.Request req, .BooleanRequest cmd,
                      .BooleanRequest (.DeleteNetwork network.ID)]⟩
              | (none, w4) =>
                (readNetwork m w4 d1).after (lookups ++ [.Request req, .BooleanRequest cmd])

def existsNetwork {W : Type} (m : Meta W) (w : W) (d : NetworkData) :
    Run W NetworkData (Bool × Option Error) :=
  match ParseUUID d.Id with
  | .error err => ⟨(false, some err), d, w, []⟩
  | .ok id =>
    match m.client.RequestWithContext w (.ListNetworks id) with
    | (.error err, w1) =>
      let r := handleNotFound d err
      ⟨(decide (r.1.Id ≠ ""), r.2), r.1, w1, [.Request (.ListNetworks id)]⟩
    | (.ok networks, w1) =>
      if networks.Count = 0 then
        ⟨(false, none), { d with Id := "" }, w1, [.Request (.ListNetworks id)]⟩
      else ⟨(true, none), d, w1, [.Request (.ListNetworks id)]⟩

/-! ## `resource_nic.go` -/

def applyNic (d : NicData) (nic : Nic) : NicData × Option Error :=
  let d := { d with Id := nic.ID.String }
  let d := { d with compute_id := nic.VirtualMachineID.String }
  let d := { d with network_id := nic.NetworkID.String }
  let d := { d with mac_address := nic.MACAddress }
  let d := match nic.IPAddress with
    | some a => { d with ip_address := a }
    | none => { d with ip_address := "" }
  let d := match nic.Netmask with
    | some a => { d with netmask := a }
    | none => { d with netmask := "" }
  let d := match nic.Gateway with
    | some a => { d with gateway := a }
    | none => { d with gateway := "" }
  (d, none)

def readNic {W : Type} (m : Meta W) (w : W) (d : NicData) : Run W NicData (Outcome Unit) :=
  match ParseUUID d.Id with
  | .error err => ⟨.error err, d, w, []⟩
  | .ok id =>
    match ParseUUID d.compute_id with
    | .error err => ⟨.error err, d, w, []⟩
    | .ok vmID =>
      match m.client.RequestWithContext w (.ListNics id vmID) with
      | (.error err, w1) =>
        let r := handleNotFound d err
        ⟨Outcome.ofError r.2, r.1, w1, [.Request (.ListNics id vmID)]⟩
      | (.ok nics, w1) =>
        if nics.Count = 0 then
          ⟨.error (.errorf ("No nic found for ID: " ++ d.Id)), d, w1,
            [.Request (.ListNics id vmID)]⟩
        else
          match nics.Nic with
          | [] => ⟨.panic, d, w1, [.Request (.ListNics id vmID)]⟩
          | nic :: _ =>
            let r := applyNic d nic
            ⟨Outcome.ofError r.2, r.1, w1, [.Request (.ListNics id vmID)]⟩

def createNic {W : Type} (m : Meta W) (w : W) (d : NicData) : Run W NicData (Outcome Unit) :=
  let ip : IP := if d.ip_address ≠ "" then (ParseIP d.ip_address).getD [] else []
  match ParseUUID d.network_id with
  | .error err => ⟨.error err, d, w, []⟩
  | .ok networkID =>
    match ParseUUID d.compute_id with
    | .error err => ⟨.error err, d, w, []⟩
    | .ok vmID =>
      let req : Command := .AddNicToVirtualMachine networkID vmID ip
      match m.client.RequestWithContext w req with
      | (.error err, w1) => ⟨.error err, d, w1, [.Request req]⟩
      | (.ok vm, w1) =>
        match vm.NicByNetworkID networkID with
        | none =>
          ⟨.error (.errorf ("Nic addition didn't create a NIC for Network " ++ networkID.String)),
            d, w1, [.Request req]⟩
        | some nic => (readNic m w1 { d with Id := nic.ID.String }).after [.Request req]

def existsNic {W : Type} (m : Meta W) (w : W) (d : NicData) :
    Run W NicData (Bool × Option Error) :=
  match ParseUUID d.Id with
  | .error err => ⟨(false, some err), d, w, []⟩
  | .ok id =>
    match ParseUUID d.compute_id with
    | .error err => ⟨(false, some err), d, w, []⟩
    | .ok vmID =>
      match m.client.RequestWithContext w (.ListNics id vmID) with
      | (.error err, w1) =>
        let r := handleNotFound d err
        ⟨(decide (r.1.Id ≠ ""), r.2), r.1, w1, [.Request (.ListNics id vmID)]⟩
      | (.ok nics, w1) =>
        if nics.Count = 0 then
          ⟨(false, none), { d with Id := "" }, w1, [.Request (.ListNics id vmID)]⟩
        else ⟨(true, none), d, w1, [.Request (.ListNics id vmID)]⟩

def deleteNic {W : Type} (m : Meta W) (w : W) (d : NicData) : Run W NicData (Outcome Unit) :=
  match ParseUUID d.Id with
  | .error err => ⟨.error err, d, w, []⟩
  | .ok id =>
    match ParseUUID d.compute_id with
    | .error err => ⟨.error err, d, w, []⟩
    | .ok vmID =>
      match ParseUUID d.network_id with
      | .error err => ⟨.error err, d, w, []⟩
      | .ok networkID =>
        let req : Command := .RemoveNicFromVirtualMachine id vmID
        match m.client.RequestWithContext w req with
        | (.error err, w1) => ⟨.error err, d, w1, [.Request req]⟩
        | (.ok vm, w1) =>
          match vm.NicByNetworkID networkID with
          | some _ =>
            ⟨.error (.errorf ("Failed removing NIC " ++ d.Id ++ " from instance " ++ vm.ID.String)),
              d, w1, [.Request req]⟩
          | none => ⟨.ok (), { d with Id := "" }, w1, [.Request req]⟩

/-! ## `resource_security_group_rule.go` -/

/-- Go `applySecurityGroupRule`. The `d.Set` of the pointer `group.ID` is taken
to store the text of the identifier (no value for a `nil` pointer). -/
def applySecurityGroupRule (d : RuleData) (group : SecurityGroup) (rule : EgressRule) :
    RuleData × Option Error :=
  let d := { d with Id := rule.RuleID.String }
  let d := { d with cidr := "" }
  let d := match rule.CIDR with
    | some c => { d with cidr := c }
    | none => d
  let d := { d with icmp_type := (rule.IcmpType : Int) }
  let d := { d with icmp_code := (rule.IcmpCode : Int) }
  let d := { d with start_port := (rule.StartPort : Int) }
  let d := { d with end_port := (rule.EndPort : Int) }
  let d := { d with protocol := ToUpper rule.Protocol }
  let d := { d with user_security_group := rule.SecurityGroupName }
  let d := { d with security_group_id := group.ID.map UUID.String }
  let d := { d with security_group := some group.Name }
  (d, none)

/-- The zero value `&egoscale.SecurityGroup{}`. -/
def SecurityGroup.zero : SecurityGroup :=
  { ID := none, Name := "", Description := "", Account := "", EgressRule := [], IngressRule := [] }

/-- Lines 178-211 of `createSecurityGroupRule`: the authorize command, issued
as the egress variant when the upper-cased `type` is `EGRESS`, and what follows
its response. `before` holds the calls made so far. -/
def createSecurityGroupRule.authorize {W : Type} (m : Meta W) (w : W) (d : RuleData)
    (securityGroup : SecurityGroup) (before : List Call) (cidrList : List CIDR)
    (groupList : List UserSecurityGroup) : Run W RuleData (Outcome Unit) :=
  let fields : AuthorizeSecurityGroupIngress :=
    { SecurityGroupID := securityGroup.ID, CIDRList := cidrList,
      Description := d.description, Protocol := d.protocol,
      EndPort := uint16 d.end_port, StartPort := uint16 d.start_port,
      IcmpType := uint8 d.icmp_type, IcmpCode := uint8 d.icmp_code,
      UserSecurityGroupList := groupList }
  let trafficType := ToUpper d.type
  if trafficType = "EGRESS" then
    match m.client.RequestWithContext w (.AuthorizeSecurityGroupEgress fields) with
    | (.error err, w1) =>
      ⟨.error err, d, w1, before ++ [.Request (.AuthorizeSecurityGroupEgress fields)]⟩
    | (.ok sg, w1) =>
      let d1 := { d with type := trafficType }
      match sg.EgressRule with
      | [] => ⟨.panic, d1, w1, before ++ [.Request (.AuthorizeSecurityGroupEgress fields)]⟩
      | rule :: _ =>
        let r := applySecurityGroupRule d1 securityGroup rule
        ⟨Outcome.ofError r.2, r.1, w1,
          before ++ [.Request (.AuthorizeSecurityGroupEgress fields)]⟩
  else
    match m.client.RequestWithContext w (.AuthorizeSecurityGroupIngress fields) with
    | (.error err, w1) =>
      ⟨.error err, d, w1, before ++ [.Request (.AuthorizeSecurityGroupIngress fields)]⟩
    | (.ok sg, w1) =>
      let d1 := { d with type := trafficType }
      match sg.IngressRule with
      | [] => ⟨.panic, d1, w1, before ++ [.Request (.AuthorizeSecurityGroupIngress fields)]⟩
      | rule :: _ =>
        let r := applySecurityGroupRule d1 securityGroup rule
        ⟨Outcome.ofError r.2, r.1, w1,
          before ++ [.Request (.AuthorizeSecurityGroupIngress fields)]⟩

/-- The reference to the parent group that `createSecurityGroupRule` builds
from the record before its first remote call (lines 121-132): by identifier
when `security_group_id` is set, else by name. -/
def createSecurityGroupRule.reference (d : RuleData) : Except Error SecurityGroup :=
  match d.security_group_id with
  | some securityGroupID =>
    match ParseUUID securityGroupID with
    | .error err => .error err
    | .ok id => .ok { SecurityGroup.zero with ID := some id }
  | none => .ok { SecurityGroup.zero with Name := d.security_group.getD "" }

def createSecurityGroupRule {W : Type} (m : Meta W) (w : W) (d : RuleData) :
    Run W RuleData (Outcome Unit) :=
  let securityGroup : Except Error SecurityGroup :=
    match d.security_group_id with
    | some securityGroupID =>
      match ParseUUID securityGroupID with
      | .error err => .error err
      | .ok id => .ok { SecurityGroup.zero with ID := some id }
    | none => .ok { SecurityGroup.zero with Name := d.security_group.getD "" }
  match securityGroup with
  | .error err => ⟨.error err, d, w, []⟩
  | .ok securityGroup0 =>
    match m.client.GetWithContext w securityGroup0 with
    | (.error err, w1) => ⟨.error err, d, w1, [.Get securityGroup0]⟩
    | (.ok securityGroup, w1) =>
      if d.cidr ≠ "" then
        match egoscale.ParseCIDR d.cidr with
        | .error err => ⟨.error err, d, w1, [.Get securityGroup0]⟩
        | .ok c =>
          createSecurityGroupRule.authorize m w1 d securityGroup [.Get securityGroup0] [c] []
      else
        let userSecurityGroupID := d.user_security_group_id
        let userSecurityGroupName := d.user_security_group
        if userSecurityGroupID = "" ∧ userSecurityGroupName = "" then
          ⟨.error (.errorf "No CIDR, User Security Group ID or Name were provided"), d, w1,
            [.Get securityGroup0]⟩
        else
          let group : Except Error SecurityGroup :=
            if userSecurityGroupID ≠ "" then
              match ParseUUID userSecurityGroupID with
              | .error err => .error err
              | .ok id => .ok { SecurityGroup.zero with Name := userSecurityGroupName, ID := some id }
            else .ok { SecurityGroup.zero with Name := userSecurityGroupName }
          match group with
          | .error err => ⟨.error err, d, w1, [.Get securityGroup0]⟩
          | .ok group0 =>
            match m.client.GetWithContext w1 group0 with
            | (.error err, w2) => ⟨.error err, d, w2, [.Get securityGroup0, .Get group0]⟩
            | (.ok group, w2) =>
              createSecurityGroupRule.authorize m w2 d securityGroup
                [.Get securityGroup0, .Get group0] []
                [{ Account := group.Account, Group := group.Name }]

/-- The reference to the parent group that `existsSecurityGroupRule` and
`readSecurityGroupRule` build from the record (their first lines). -/
def securityGroupOf (d : RuleData) : Except Error SecurityGroup :=
  match d.security_group_id with
  | some s =>
    match ParseUUID s with
    | .error err => .error err
    | .ok securityGroupID => .ok { SecurityGroup.zero with ID := some securityGroupID, Name := "" }
  | none =>
    match d.security_group with
    | some n => .ok { SecurityGroup.zero with ID := none, Name := n }
    | none => .error (.errorf "Missing either Security Group ID or Name")

/-- A loop of `existsSecurityGroupRule`: `true` at the first rule whose
identifier is `id`. -/
def existsSecurityGroupRule.scan (id : String) : List EgressRule → Bool
  | [] => false
  | rule :: rest =>
    if rule.RuleID.String = id then true else existsSecurityGroupRule.scan id rest

def existsSecurityGroupRule {W : Type} (m : Meta W) (w : W) (d : RuleData) :
    Run W RuleData (Bool × Option Error) :=
  match securityGroupOf d with
  | .error err => ⟨(false, some err), d, w, []⟩
  | .ok sg0 =>
    match m.client.GetWithContext w sg0 with
    | (.error err, w1) =>
      let r := handleNotFound d err
      ⟨(decide (r.1.Id ≠ ""), r.2), r.1, w1, [.Get sg0]⟩
    | (.ok sg, w1) =>
      if d.type = "EGRESS" then
        if existsSecurityGroupRule.scan d.Id sg.EgressRule then ⟨(true, none), d, w1, [.Get sg0]⟩
        else ⟨(false, none), d, w1, [.Get sg0]⟩
      else if d.type = "INGRESS" then
        if existsSecurityGroupRule.scan d.Id sg.IngressRule then ⟨(true, none), d, w1, [.Get sg0]⟩
        else ⟨(false, none), d, w1, [.Get sg0]⟩
      else ⟨(false, none), d, w1, [.Get sg0]⟩

/-- A loop of `readSecurityGroupRule`: the first rule whose identifier is `id`. -/
def readSecurityGroupRule.scan (id : String) : List EgressRule → Option EgressRule
  | [] => none
  | rule :: rest =>
    if rule.RuleID.String = id then some rule else readSecurityGroupRule.scan id rest

def readSecurityGroupRule {W : Type} (m : Meta W) (w : W) (d : RuleData) :
    Run W RuleData (Outcome Unit) :=
  match securityGroupOf d with
  | .error err => ⟨.error err, d, w, []⟩
  | .ok sg0 =>
    match m.client.GetWithContext w sg0 with
    | (.error err, w1) =>
      let r := handleNotFound d err
      ⟨Outcome.ofError r.2, r.1, w1, [.Get sg0]⟩
    | (.ok sg, w1) =>
      let id := d.Id
      match readSecurityGroupRule.scan id sg.EgressRule with
      | some rule =>
        let r := applySecurityGroupRule { d with type := "EGRESS" } sg rule
        ⟨Outcome.ofError r.2, r.1, w1, [.Get sg0]⟩
      | none =>
        match readSecurityGroupRule.scan id sg.IngressRule with
        | some rule =>
          let r := applySecurityGroupRule { d with type := "INGRESS" } sg rule
          ⟨Outcome.ofError r.2, r.1, w1, [.Get sg0]⟩
        | none => ⟨.ok (), { d with Id := "" }, w1, [.Get sg0]⟩

def deleteSecurityGroupRule {W : Type} (m : Meta W) (w : W) (d : RuleData) :
    Run W RuleData (Outcome Unit) :=
  match ParseUUID d.Id with
  | .error err => ⟨.error err, d, w, []⟩
  | .ok id =>
    let req : Command :=
      if d.type = "EGRESS" then .RevokeSecurityGroupEgress id
      else .RevokeSecurityGroupIngress id
    match m.client.BooleanRequestWithContext w req with
    | (err, w1) => ⟨Outcome.ofError err, d, w1, [.BooleanRequest req]⟩

/-- The loop of Go `validation.StringInSlice(valid, ignoreCase)`: the value is
accepted at the first entry it equals, or equals in lower case when
`ignoreCase` is set. -/
def validation.StringInSlice.scan (ignoreCase : Bool) (v : String) : List String → Bool
  | [] => false
  | str :: rest =>
    if v = str ∨ (ignoreCase = true ∧ ToLower v = ToLower str) then true
    else validation.StringInSlice.scan ignoreCase v rest

/-- Go `validation.StringInSlice(valid, ignoreCase)`: `true` when the value
passes. -/
def validation.StringInSlice (valid : List String) (ignoreCase : Bool) (v : String) : Bool :=
  validation.StringInSlice.scan ignoreCase v valid

/-- Go `validation.IntBetween(min, max)`: `true` when the value passes. -/
def validation.IntBetween (min max : Int) (v : Int) : Bool :=
  if v < min ∨ v > max then false else true

/-- The `ValidateFunc` of the key `type` in the schema of
`securityGroupRuleResource`. -/
def securityGroupRuleResource.type (v : String) : Bool :=
  validation.StringInSlice ["INGRESS", "EGRESS"] true v

/-- The `ValidateFunc` of the keys `start_port` and `end_port`. -/
def securityGroupRuleResource.port (v : Int) : Bool := validation.IntBetween 0 65535 v

/-- The `ValidateFunc` of the keys `icmp_type` and `icmp_code`. -/
def securityGroupRuleResource.icmp (v : Int) : Bool := validation.IntBetween 0 255 v

/-! ## `resource_security_group.go` -/

/-- Go `applySecurityGroup`; `securityGroup.ID.String()` panics on a `nil`
identifier. -/
def applySecurityGroup (d : SecurityGroupData) (securityGroup : SecurityGroup) :
    Outcome SecurityGroupData :=
  match securityGroup.ID with
  | none => .panic
  | some id =>
    let d := { d with Id := id.String }
    let d := { d with name := securityGroup.Name }
    let d := { d with description := securityGroup.Description }
    .ok d

/-- A rule loop of `importSecurityGroup`: one fresh record per rule, its `type`
set to `direction`, appended to `resources`. -/
def importSecurityGroup.rules (securityGroup : SecurityGroup) (direction : String) :
    List EgressRule → List Resource → Except Error (List Resource)
  | [], resources => .ok resources
  | rule :: rest, resources =>
    let d := RuleData.empty
    let d := { d with type := direction }
    match applySecurityGroupRule d securityGroup rule with
    | (_, some err) => .error err
    | (d, none) =>
      importSecurityGroup.rules securityGroup direction rest
        (resources ++ [.exoscale_security_group_rule d])

/-- Lines 138-145 of `importSecurityGroup`: the reference to the group, by
identifier when the local identifier parses as one, by name otherwise. -/
def importSecurityGroup.reference (d : SecurityGroupData) : SecurityGroup :=
  match ParseUUID d.Id with
  | .error _ => { SecurityGroup.zero with Name := d.Id }
  | .ok id => { SecurityGroup.zero with ID := some id }

def importSecurityGroup {W : Type} (m : Meta W) (w : W) (d : SecurityGroupData) :
    Run W SecurityGroupData (Outcome (List Resource)) :=
  let securityGroup0 : SecurityGroup := importSecurityGroup.reference d
  match m.client.GetWithContext w securityGroup0 with
  | (.error err, w1) => ⟨.error err, d, w1, [.Get securityGroup0]⟩
  | (.ok securityGroup, w1) =>
    match applySecurityGroup d securityGroup with
    | .panic => ⟨.panic, d, w1, [.Get securityGroup0]⟩
    | .error err => ⟨.error err, d, w1, [.Get securityGroup0]⟩
    | .ok d1 =>
      let resources : List Resource := [.exoscale_security_group d1]
      match importSecurityGroup.rules securityGroup "EGRESS" securityGroup.EgressRule resources with
      | .error err => ⟨.error err, d1, w1, [.Get securityGroup0]⟩
      | .ok resources =>
        match importSecurityGroup.rules securityGroup "INGRESS" securityGroup.IngressRule
            resources with
        | .error err => ⟨.error err, d1, w1, [.Get securityGroup0]⟩
        | .ok resources => ⟨.ok resources, d1, w1, [.Get securityGroup0]⟩

/-! ## Vocabulary of the statements -/

/-- The octets a prefix mask is made of. -/
def prefixOctets : List Nat := [0, 128, 192, 224, 240, 248, 252, 254, 255]

/-- The remote rule the two scans of `readSecurityGroupRule` arrive at for an
identifier, with the name of the list it sits in: the first match of the egress
list, else the first match of the ingress list. -/
def resolvedRule (sg : SecurityGroup) (id : String) : Option (String × EgressRule) :=
  match sg.EgressRule.find? (fun rule => decide (rule.RuleID.String = id)) with
  | some rule => some ("EGRESS", rule)
  | none =>
    match sg.IngressRule.find? (fun rule => decide (rule.RuleID.String = id)) with
    | some rule => some ("INGRESS", rule)
    | none => none

/-- Four octets read as a 32-bit big-endian integer. -/
def bigEndian32 (x0 x1 x2 x3 : Nat) : Nat := ((x0 * 256 + x1) * 256 + x2) * 256 + x3

/-! ## A scripted remote side, for concrete runs -/

def id1 : UUID := ⟨"00000000-0000-0000-0000-000000000001", by decide⟩

def id2 : UUID := ⟨"00000000-0000-0000-0000-000000000002", by decide⟩

def id3 : UUID := ⟨"00000000-0000-0000-0000-000000000003", by decide⟩

def idNet : UUID := ⟨"abc00000-0000-0000-0000-000000000123", by decide⟩

/-- The answers of a remote side that keeps no state: one answer per kind of
call. -/
structure Script where
  zone : Except Error Zone
  offering : Except Error NetworkOffering
  network : Except Error Network
  tags : Option Error
  deleteNetwork : Option Error
  listNetworks : Except Error ListNetworksResponse
  listNics : Except Error ListNicsResponse
  machine : Except Error VirtualMachine
  group : Except Error SecurityGroup

def Script.client (s : Script) : Client Unit where
  RequestWithContext := fun w c =>
    match c with
    | .CreateNetwork _ => (s.network, w)
    | .ListNetworks _ => (s.listNetworks, w)
    | .AddNicToVirtualMachine _ _ _ => (s.machine, w)
    | .ListNics _ _ => (s.listNics, w)
    | .RemoveNicFromVirtualMachine _ _ => (s.machine, w)
    | .AuthorizeSecurityGroupIngress _ => (s.group, w)
    | .AuthorizeSecurityGroupEgress _ => (s.group, w)
    | .DeleteNetwork _ => (.ok (), w)
    | .CreateTags _ _ _ => (.ok (), w)
    | .RevokeSecurityGroupIngress _ => (.ok (), w)
    | .RevokeSecurityGroupEgress _ => (.ok (), w)
  BooleanRequestWithContext := fun w c =>
    match c with
    | .DeleteNetwork _ => (s.deleteNetwork, w)
    | _ => (s.tags, w)
  GetWithContext := fun w _ => (s.group, w)

/-- The provider's `meta` over a script; `createTags` yields a command when
the record carries tags. -/
def Script.meta (s : Script) : Meta Unit where
  client := s.client
  getZoneByName := fun w _ => (s.zone, w)
  getNetworkOfferingByName := fun w _ => (s.offering, w)
  createTags := fun d _ resourceType =>
    if d.tags = [] then .ok none
    else .ok (some (.CreateTags resourceType d.Id
      (d.tags.map fun kv => { Key := kv.1, Value := kv.2 })))

def net1 : Network :=
  { ID := idNet, Name := "net1", DisplayText := "net1", NetworkOfferingName := "privnet",
    ZoneName := "ch-gva-2", Tags := [] }

def rule1 : EgressRule :=
  { RuleID := id1, CIDR := some "0.0.0.0/0", IcmpType := 0, IcmpCode := 0, StartPort := 22,
    EndPort := 22, Protocol := "tcp", SecurityGroupName := "", Description := "" }

def rule2 : EgressRule := { rule1 with RuleID := id2, StartPort := 80, EndPort := 80 }

def rule3 : EgressRule := { rule1 with RuleID := id3, StartPort := 443, EndPort := 443 }

/-- The group "web": one egress rule, two ingress rules. -/
def web : SecurityGroup :=
  { ID := some idNet, Name := "web", Description := "", Account := "acme",
    EgressRule := [rule1], IngressRule := [rule2, rule3] }

def nic9 : Nic :=
  { ID := id3, VirtualMachineID := id1, NetworkID := id2, MACAddress := "0a:00:00:00:00:01",
    IPAddress := none, Netmask := none, Gateway := none }

/-- A remote side on which every call succeeds. -/
def script : Script :=
  { zone := .ok ⟨id1, "ch-gva-2"⟩, offering := .ok ⟨id2, "privnet", false⟩,
    network := .ok net1, tags := none, deleteNetwork := none,
    listNetworks := .ok ⟨1, [net1]⟩, listNics := .ok ⟨1, [nic9]⟩,
    machine := .ok ⟨id1, [nic9]⟩, group := .ok web }

/-- The record of the network "net1" before its creation. -/
def networkNet1 : NetworkData :=
  { Id := "", name := "net1", display_text := "", network_offering := "privnet",
    zone := "ch-gva-2", tags := [] }

/-- A rule record with no target at all. -/
def ruleNeither : RuleData :=
  { RuleData.empty with
    type := "INGRESS", security_group := some "web", protocol := "tcp",
    start_port := 22, end_port := 22 }

/-- A rule record with both a CIDR and a user group. -/
def ruleBoth : RuleData :=
  { ruleNeither with cidr := "10.0.0.0/24", user_security_group := "db" }

/-- The fields of the authorize command `ruleBoth` leads to. -/
def authorizeBoth : AuthorizeSecurityGroupIngress :=
  { SecurityGroupID := some idNet, CIDRList := [⟨⟨[10, 0, 0, 0], [255, 255, 255, 0]⟩⟩],
    Description := "", Protocol := "tcp", EndPort := 22, StartPort := 22, IcmpType := 0,
    IcmpCode := 0, UserSecurityGroupList := [] }

/-- A transport failure. -/
def transportError : Error := .response false "connection reset"

/-- The API's not-found response. -/
def notFoundError : Error := .response true "not found"

/-- A network record that declares a tag. -/
def networkTagged : NetworkData := { networkNet1 with tags := [("env", "prod")] }

/-- A remote side on which applying tags fails and the delete succeeds. -/
def scriptTagFailure : Script := { script with tags := some transportError }

/-- A remote side on which applying tags fails and the delete fails too. -/
def scriptTagDeleteFailure : Script :=
  { script with tags := some transportError, deleteNetwork := some notFoundError }

/-- The record of a network that was created before. -/
def networkKnown : NetworkData :=
  { networkNet1 with Id := "abc00000-0000-0000-0000-000000000123" }

/-- The record of a NIC that was created before: machine `id1`, network `id2`. -/
def nicKnown : NicData :=
  { Id := "00000000-0000-0000-0000-000000000003",
    compute_id := "00000000-0000-0000-0000-000000000001",
    network_id := "00000000-0000-0000-0000-000000000002",
    ip_address := "", netmask := "", gateway := "", mac_address := "" }

/-- A remote side whose lists come back empty. -/
def scriptEmpty : Script :=
  { script with listNetworks := .ok ⟨0, []⟩, listNics := .ok ⟨0, []⟩ }

/-- A remote side whose lists fail with the not-found response. -/
def scriptNotFound : Script :=
  { script with listNetworks := .error notFoundError, listNics := .error notFoundError }

/-- A remote side whose lists fail with a transport error. -/
def scriptTransport : Script :=
  { script with listNetworks := .error transportError, listNics := .error transportError }

/-- A remote side on which the machine comes back without any NIC. -/
def scriptNoNic : Script := { script with machine := .ok ⟨id1, []⟩ }

/-- The record an import of the group "web" starts from. -/
def webImport : SecurityGroupData := { Id := "web", name := "", description := "" }

/-- The record of the egress rule `id1` of the group "web". -/
def ruleEgress : RuleData :=
  { ruleNeither with Id := "00000000-0000-0000-0000-000000000001", type := "EGRESS" }

/-- The record of the ingress rule `id2` of the group "web". -/
def ruleIngress : RuleData :=
  { ruleNeither with Id := "00000000-0000-0000-0000-000000000002", type := "INGRESS" }

/-- The record of a rule the group "web" does not hold. -/
def ruleGone : RuleData :=
  { ruleNeither with Id := "00000000-0000-0000-0000-00000000dead", type := "INGRESS" }

/-- The record of the ingress rule `id2` with its type in lower case. -/
def ruleIngressLower : RuleData := { ruleIngress with type := "ingress" }

/-- The reference to the group "web" by name. -/
def webByName : SecurityGroup := { SecurityGroup.zero with Name := "web" }

/-- A rule record whose CIDR is malformed. -/
def ruleBadCIDR : RuleData := { ruleNeither with cidr := "bogus" }

/-- A rule record whose user group identifier is malformed. -/
def ruleBadUserGroup : RuleData := { ruleNeither with user_security_group_id := "db" }

/-- A rule record whose parent group identifier is malformed. -/
def ruleBadGroup : RuleData := { ruleBoth with security_group_id := some "web" }

/-- A NIC record whose network identifier is malformed. -/
def nicBadNetwork : NicData := { nicKnown with Id := "", network_id := "net-9" }

/-- A NIC record whose machine identifier is malformed. -/
def nicBadCompute : NicData := { nicKnown with Id := "", compute_id := "vm-1" }

/-- The upper-case and lower-case forms of the letters of "EGRESS". -/
def egressLetters : List (Char × Char) := [('E', 'e'), ('G', 'g'), ('R', 'r'), ('S', 's')]

/-- A rule record for the group "web" with a CIDR, declared with the type
"İNGRESS", whose first letter is the capital I with dot above (U+0130). -/
def ruleDotted : RuleData :=
  { ruleNeither with
    type := "\u0130NGRESS", cidr := "10.0.0.0/24" }

/-- The record `ruleBoth` declared as an egress rule, in lower case. -/
def ruleBothEgress : RuleData := { ruleBoth with type := "egress" }

/-- A NIC record before its creation: machine `id1`, network `id2`. -/
def nicFresh : NicData := { nicKnown with Id := "" }

/-! ## Facts about the `net` package -/

theorem CIDRMask.bytes_length (l : Nat) : ∀ n, (CIDRMask.bytes l n).length = l := by
  induction l with
  | zero => intro n; simp [CIDRMask.bytes]
  | succ l ih =>
    intro n
    unfold CIDRMask.bytes
    split <;> simp [ih]

theorem parseIPv4.octets_lt (k : Nat) : ∀ (i : Nat) (s : List Char) (p : List Nat)
    (rest : List Char), parseIPv4.octets k i s = some (p, rest) → ∀ x ∈ p, x < 256 := by
  induction k with
  | zero =>
    intro i s p rest h x hx
    simp [parseIPv4.octets] at h
    rw [h.1] at hx
    simp at hx
  | succ k ih =>
    intro i s p rest h x hx
    unfold parseIPv4.octets at h
    by_cases hs : s.length = 0
    · simp [hs] at h
    · rw [if_neg hs] at h
      dsimp only at h
      generalize (ite (0 < i) _ _ : Option (List Char)) = o at h
      cases o with
      | none => simp at h
      | some s1 =>
        dsimp only at h
        split at h
        · simp at h
        · cases hrec : parseIPv4.octets k (i + 1) (List.drop (dtoi s1).2.1 s1) with
          | none => rw [hrec] at h; simp at h
          | some pr =>
            obtain ⟨p1, rest1⟩ := pr
            rw [hrec] at h
            simp only [Option.some.injEq, Prod.mk.injEq] at h
            rw [← h.1] at hx
            rcases List.mem_cons.mp hx with hx | hx
            · rw [hx]; exact Nat.mod_lt _ (by norm_num)
            · exact ih _ _ _ _ hrec x hx

theorem parseIPv4_eq_some (s : List Char) (ip : IP) (h : parseIPv4 s = some ip) :
    ∃ a b c e, a < 256 ∧ b < 256 ∧ c < 256 ∧ e < 256 ∧ ip = IPv4 a b c e := by
  unfold parseIPv4 at h
  split at h
  · rename_i p0 p1 p2 p3 heq
    have hlt := parseIPv4.octets_lt _ _ _ _ _ heq
    simp only [Option.some.injEq] at h
    exact ⟨p0, p1, p2, p3, hlt p0 (by simp), hlt p1 (by simp), hlt p2 (by simp),
      hlt p3 (by simp), h.symm⟩
  · simp at h

/-- A text that `ParseCIDR` reads with a four-byte mask is an IPv4 CIDR
`a.b.c.e/n`: the address is `IPv4 a b c e` and the mask is `CIDRMask n 32`. -/
theorem ParseCIDR_v4 (s : String) (ip : IP) (ipnet : IPNet)
    (h : ParseCIDR s = .ok (ip, ipnet)) (h4 : ipnet.Mask.length = 4) :
    ∃ a b c e n, a < 256 ∧ b < 256 ∧ c < 256 ∧ e < 256 ∧ n ≤ 32 ∧ ip = IPv4 a b c e ∧
      ipnet.Mask = CIDRMask n 32 ∧ ipnet.IP = ip.Mask (CIDRMask n 32) := by
  unfold ParseCIDR at h
  split at h
  · simp at h
  · rename_i addr mask hsplit
    cases hv4 : parseIPv4 addr with
    | some ip4 =>
      simp only [hv4] at h
      split at h
      · rename_i ip1 n i hip hd
        split at h
        · simp at h
        · rename_i hcond
          simp only [Except.ok.injEq, Prod.mk.injEq] at h
          simp only [Option.some.injEq] at hip
          obtain ⟨a, b, c, e, ha, hb, hc, he, hip4⟩ := parseIPv4_eq_some _ _ hv4
          have hn : n ≤ 32 := by
            simp only [IPv4len, not_or, not_lt] at hcond
            omega
          refine ⟨a, b, c, e, n, ha, hb, hc, he, hn, ?_, ?_, ?_⟩
          · rw [← h.1, ← hip, hip4]
          · rw [← h.2]; simp [IPv4len]
          · rw [← h.2, ← h.1]; simp [IPv4len]
      · simp at h
    | none =>
      simp only [hv4] at h
      split at h
      · rename_i ip1 n i hip hd
        split at h
        · simp at h
        · rename_i hcond
          simp only [Except.ok.injEq, Prod.mk.injEq] at h
          exfalso
          have hn : n ≤ 128 := by
            simp only [IPv6len, not_or, not_lt] at hcond
            omega
          have hlen : ipnet.Mask.length = 16 := by
            rw [← h.2]
            simp only [CIDRMask, IPv6len, IPv4len]
            rw [if_neg (by omega), if_neg (by omega)]
            simp [CIDRMask.bytes_length]
          omega
      · simp at h

theorem CIDRMask_v4_octets (n : Nat) (hn : n ≤ 32) :
    ∃ m0 m1 m2 m3, CIDRMask n 32 = [m0, m1, m2, m3] ∧ m0 ∈ prefixOctets ∧
      m1 ∈ prefixOctets ∧ m2 ∈ prefixOctets ∧ m3 ∈ prefixOctets := by
  interval_cases n <;> exact ⟨_, _, _, _, rfl, by decide, by decide, by decide, by decide⟩

theorem IPv4_Mask (a b c e m0 m1 m2 m3 : Nat) :
    (IPv4 a b c e).Mask [m0, m1, m2, m3] = [a &&& m0, b &&& m1, c &&& m2, e &&& m3] := by
  simp [IP.Mask, IPv4, v4InV6Prefix, IPv4len, IPv6len]

theorem IPv4_To4 (a b c e : Nat) : (IPv4 a b c e).To4 = some [a, b, c, e] := by
  simp [IP.To4, IPv4, v4InV6Prefix, IPv4len, IPv6len, isZeros]

set_option maxRecDepth 100000 in
/-- Byte arithmetic on one octet of a prefix mask: adding the complement of the
mask to a masked octet never carries, so it is the bitwise OR; masking the sum
gives the masked octet back; and the sum bounds every octet with that mask. -/
theorem octet_facts : ∀ a, a < 256 → ∀ m ∈ prefixOctets,
    ((a &&& m) + (m ^^^ 0xff) % 256) % 256 = ((a &&& m) + (255 - m)) % 256 ∧
    ((a &&& m) + (255 - m)) % 256 = (a &&& m) ||| (255 - m) ∧
    (((a &&& m) + (255 - m)) % 256) &&& m = a &&& m ∧
    a ≤ ((a &&& m) + (255 - m)) % 256 := by decide

/-! ## `createNetwork`: netmask and gateway -/

/-- The schema of `networkResource` declares no key `cidr`, so
`d.GetOk("cidr")` is never ok. -/
theorem NetworkData.GetOk_cidr (d : NetworkData) : d.GetOk "cidr" = none := by
  have h : ("cidr" ∈ networkResource.Schema) = False := by decide
  simp [NetworkData.GetOk, NetworkData.GetString, h]

/-- Lines 113-142 always yield the zero address twice. -/
theorem createNetwork.addresses_zero (d : NetworkData) :
    createNetwork.addresses d = .ok (IPv4zero, IPv4zero) := by
  unfold createNetwork.addresses
  rw [NetworkData.GetOk_cidr]

/-- On an IPv4 CIDR `a.b.c.e/n`, lines 117-141 yield the mask octets as the
netmask and the byte sums of the masked address and the mask complement as the
gateway. -/
theorem createNetwork.fromCIDR_v4 (text : String) (ip : IP) (ipnet : IPNet)
    (hparse : ParseCIDR text = .ok (ip, ipnet)) (h4 : ipnet.Mask.length = 4) :
    ∃ a b c e n m0 m1 m2 m3,
      (a < 256 ∧ b < 256 ∧ c < 256 ∧ e < 256 ∧ n ≤ 32) ∧
      (m0 ∈ prefixOctets ∧ m1 ∈ prefixOctets ∧ m2 ∈ prefixOctets ∧ m3 ∈ prefixOctets) ∧
      ip = IPv4 a b c e ∧ CIDRMask n 32 = [m0, m1, m2, m3] ∧ ipnet.Mask = [m0, m1, m2, m3] ∧
      ip.Mask ipnet.Mask = [a &&& m0, b &&& m1, c &&& m2, e &&& m3] ∧
      createNetwork.fromCIDR text = .ok (IPv4 m0 m1 m2 m3,
        IPv4 (((a &&& m0) + (m0 ^^^ 0xff) % 256) % 256) (((b &&& m1) + (m1 ^^^ 0xff) % 256) % 256)
          (((c &&& m2) + (m2 ^^^ 0xff) % 256) % 256) (((e &&& m3) + (m3 ^^^ 0xff) % 256) % 256)) := by
  obtain ⟨a, b, c, e, n, ha, hb, hc, he, hn, hip, hmask, -⟩ := ParseCIDR_v4 _ _ _ hparse h4
  obtain ⟨m0, m1, m2, m3, hm, h0, h1, h2, h3⟩ := CIDRMask_v4_octets n hn
  have hmask4 : ipnet.Mask = [m0, m1, m2, m3] := by rw [hmask, hm]
  have hsub : ip.Mask ipnet.Mask = [a &&& m0, b &&& m1, c &&& m2, e &&& m3] := by
    rw [hmask4, hip, IPv4_Mask]
  refine ⟨a, b, c, e, n, m0, m1, m2, m3, ⟨ha, hb, hc, he, hn⟩, ⟨h0, h1, h2, h3⟩, hip, hm,
    hmask4, hsub, ?_⟩
  unfold createNetwork.fromCIDR
  rw [hparse]
  have hto4 : ip.To4 ≠ none := by rw [hip, IPv4_To4]; simp
  simp only [hto4, if_false, hmask4]
  rw [hmask4] at hsub
  rw [hsub]

/-- With the lookups answered and an offering that does not specify IP ranges,
the third call of `createNetwork` is the `CreateNetwork` command carrying the
addresses of lines 113-142. -/
theorem createNetwork.calls_take {W : Type} (m : Meta W) (w w1 w2 : W) (d : NetworkData)
    (zone : Zone) (networkOffering : NetworkOffering) (netmask gateway : IP)
    (hz : m.getZoneByName w d.zone = (.ok zone, w1))
    (ho : m.getNetworkOfferingByName w1 d.network_offering = (.ok networkOffering, w2))
    (hs : networkOffering.SpecifyIPRanges = false)
    (haddr : createNetwork.addresses d = .ok (netmask, gateway)) :
    (createNetwork m w d).calls.take 3 =
      [.getZoneByName d.zone, .getNetworkOfferingByName d.network_offering,
        .Request (.CreateNetwork
          { Name := d.name,
            DisplayText := if d.display_text = "" then d.name else d.display_text,
            NetworkOfferingID := networkOffering.ID, ZoneID := zone.ID,
            Netmask := netmask, Gateway := gateway })] := by
  unfold createNetwork
  simp only [hz, ho, hs, haddr, Bool.false_eq_true, if_false]
  repeat' split
  all_goals simp [Run.after]

/-- The calls of `readNetwork` are `ListNetworks` requests. -/
theorem readNetwork.calls_lists {W : Type} (m : Meta W) (w : W) (d : NetworkData) :
    ∀ call ∈ (readNetwork m w d).calls, ∃ id, call = .Request (.ListNetworks id) := by
  intro call hcall
  unfold readNetwork at hcall
  repeat' split at hcall
  all_goals simp only [List.not_mem_nil, List.mem_singleton, Run.after, List.mem_append,
    List.mem_cons, or_false, false_or] at hcall
  all_goals exact ⟨_, hcall⟩

/-- Every `CreateNetwork` command of a run carries the addresses of lines
113-142. -/
theorem createNetwork.created_with {W : Type} (m : Meta W) (w : W) (d : NetworkData)
    (c : CreateNetwork) (h : Call.Request (.CreateNetwork c) ∈ (createNetwork m w d).calls) :
    createNetwork.addresses d = .ok (c.Netmask, c.Gateway) := by
  have hread : ∀ (w0 : W) (d0 : NetworkData),
      Call.Request (.CreateNetwork c) ∉ (readNetwork m w0 d0).calls := by
    intro w0 d0 hmem
    obtain ⟨id, hid⟩ := readNetwork.calls_lists m w0 d0 _ hmem
    cases hid
  unfold createNetwork at h
  dsimp only at h
  repeat' split at h
  all_goals
    simp only [Run.after, List.mem_append, List.mem_cons, List.mem_singleton,
      List.not_mem_nil, or_false, false_or, Call.Request.injEq, Command.CreateNetwork.injEq,
      reduceCtorEq, hread] at h
  all_goals (subst h; assumption)

/-- The run of `createNetwork` for "net1" against a remote side on which every
call succeeds: no record holds a `cidr`, the text `10.0.0.0/24` cannot reach
the operation, and the `CreateNetwork` command carries the zero address as
netmask and as gateway, not `255.255.255.0` and `10.0.0.255`. -/
theorem createNetwork_netmask_counterexample :
    "cidr" ∉ networkResource.Schema ∧
    (¬ ∃ d : NetworkData, d.GetOk "cidr" = some "10.0.0.0/24") ∧
    (createNetwork script.meta () networkNet1).calls.take 3 =
      [.getZoneByName "ch-gva-2", .getNetworkOfferingByName "privnet",
        .Request (.CreateNetwork
          { Name := "net1", DisplayText := "net1", NetworkOfferingID := id2, ZoneID := id1,
            Netmask := IPv4zero, Gateway := IPv4zero })] ∧
    IPv4zero ≠ IPv4 255 255 255 0 ∧ IPv4zero ≠ IPv4 10 0 0 255 := by
  refine ⟨by decide, ?_, by decide, by decide, by decide⟩
  rintro ⟨d, hd⟩
  rw [NetworkData.GetOk_cidr] at hd
  cases hd

/-- C1, as amended. The schema of the network resource declares no `cidr`, so
`createNetwork` never reaches the CIDR block of lines 117-141: every
`CreateNetwork` command it issues carries the netmask `0.0.0.0` and the gateway
`0.0.0.0`, and once the zone and offering lookups are answered that command is
its third call. The CIDR block itself, on every text that parses as an IPv4
CIDR `a.b.c.e/n` (0 ≤ n ≤ 32), with `m` the four octets of the mask of prefix
length `n` and `s` the address masked by `m`, yields the netmask `m0.m1.m2.m3`
and the gateway whose octet `i` is `(s[i] + (255 - m[i])) mod 256`, and that
byte sum is the bitwise OR of `s[i]` and the complement of `m[i]`; on
`10.0.0.0/24` it yields `255.255.255.0` and `10.0.0.255`. -/
theorem createNetwork_netmask_gateway :
    (∀ (W : Type) (m : Meta W) (w : W) (d : NetworkData) (c : CreateNetwork),
        Call.Request (.CreateNetwork c) ∈ (createNetwork m w d).calls →
        c.Netmask = IPv4zero ∧ c.Gateway = IPv4zero) ∧
    (∀ (W : Type) (m : Meta W) (w w1 w2 : W) (d : NetworkData)
        (zone : Zone) (networkOffering : NetworkOffering),
        m.getZoneByName w d.zone = (.ok zone, w1) →
        m.getNetworkOfferingByName w1 d.network_offering = (.ok networkOffering, w2) →
        networkOffering.SpecifyIPRanges = false →
        ∃ rest, (createNetwork m w d).calls =
          [.getZoneByName d.zone, .getNetworkOfferingByName d.network_offering,
            .Request (.CreateNetwork
              { Name := d.name,
                DisplayText := if d.display_text = "" then d.name else d.display_text,
                NetworkOfferingID := networkOffering.ID, ZoneID := zone.ID,
                Netmask := IPv4zero, Gateway := IPv4zero })] ++ rest) ∧
    (∀ (text : String) (ip : IP) (ipnet : IPNet),
        ParseCIDR text = .ok (ip, ipnet) → ipnet.Mask.length = 4 →
        ∃ a b c e n m0 m1 m2 m3 s0 s1 s2 s3,
          (a < 256 ∧ b < 256 ∧ c < 256 ∧ e < 256 ∧ n ≤ 32) ∧ ip = IPv4 a b c e ∧
          ipnet.Mask = CIDRMask n 32 ∧ ipnet.Mask = [m0, m1, m2, m3] ∧
          ip.Mask ipnet.Mask = [s0, s1, s2, s3] ∧
          createNetwork.fromCIDR text = .ok (IPv4 m0 m1 m2 m3,
            IPv4 ((s0 + (255 - m0)) % 256) ((s1 + (255 - m1)) % 256)
              ((s2 + (255 - m2)) % 256) ((s3 + (255 - m3)) % 256)) ∧
          (s0 + (255 - m0)) % 256 = s0 ||| (255 - m0) ∧
          (s1 + (255 - m1)) % 256 = s1 ||| (255 - m1) ∧
          (s2 + (255 - m2)) % 256 = s2 ||| (255 - m2) ∧
          (s3 + (255 - m3)) % 256 = s3 ||| (255 - m3)) ∧
    createNetwork.fromCIDR "10.0.0.0/24" = .ok (IPv4 255 255 255 0, IPv4 10 0 0 255) := by
  refine ⟨?_, ?_, ?_, by decide⟩
  · intro W m w d c hc
    have h := createNetwork.created_with m w d c hc
    rw [createNetwork.addresses_zero] at h
    simp only [Outcome.ok.injEq, Prod.mk.injEq] at h
    exact ⟨h.1.symm, h.2.symm⟩
  · intro W m w w1 w2 d zone networkOffering hz ho hs
    have htake := createNetwork.calls_take m w w1 w2 d zone networkOffering _ _ hz ho hs
      (createNetwork.addresses_zero d)
    exact ⟨(createNetwork m w d).calls.drop 3, by rw [← htake, List.take_append_drop]⟩
  · intro text ip ipnet hparse h4
    obtain ⟨a, b, c, e, n, m0, m1, m2, m3, ⟨ha, hb, hc, he, hn⟩, ⟨h0, h1, h2, h3⟩, hip, hm,
      hmask4, hsub, haddr⟩ := createNetwork.fromCIDR_v4 text ip ipnet hparse h4
    obtain ⟨f0, g0, -, -⟩ := octet_facts a ha m0 h0
    obtain ⟨f1, g1, -, -⟩ := octet_facts b hb m1 h1
    obtain ⟨f2, g2, -, -⟩ := octet_facts c hc m2 h2
    obtain ⟨f3, g3, -, -⟩ := octet_facts e he m3 h3
    rw [f0, f1, f2, f3] at haddr
    refine ⟨a, b, c, e, n, m0, m1, m2, m3, a &&& m0, b &&& m1, c &&& m2, e &&& m3,
      ⟨ha, hb, hc, he, hn⟩, hip, ?_, hmask4, hsub, haddr, g0, g1, g2, g3⟩
    rw [hmask4, hm]

/-- The three parts of C1 at work: the `CreateNetwork` command of the run for
"net1", the calls of that run, and the CIDR block on `10.0.0.0/24`. -/
theorem createNetwork_netmask_gateway_witness :
    (Call.Request (.CreateNetwork
        { Name := "net1", DisplayText := "net1", NetworkOfferingID := id2, ZoneID := id1,
          Netmask := IPv4zero, Gateway := IPv4zero }) ∈
      (createNetwork script.meta () networkNet1).calls ∧
      IPv4zero = IPv4zero ∧ IPv4zero = IPv4zero) ∧
    (∃ rest, (createNetwork script.meta () networkNet1).calls =
      [.getZoneByName "ch-gva-2", .getNetworkOfferingByName "privnet",
        .Request (.CreateNetwork
          { Name := "net1", DisplayText := "net1", NetworkOfferingID := id2, ZoneID := id1,
            Netmask := IPv4zero, Gateway := IPv4zero })] ++ rest) ∧
    (ParseCIDR "10.0.0.0/24" = .ok (IPv4 10 0 0 0, ⟨[10, 0, 0, 0], [255, 255, 255, 0]⟩) ∧
      ∃ a b c e n m0 m1 m2 m3 s0 s1 s2 s3,
        (a < 256 ∧ b < 256 ∧ c < 256 ∧ e < 256 ∧ n ≤ 32) ∧ IPv4 10 0 0 0 = IPv4 a b c e ∧
        [255, 255, 255, 0] = CIDRMask n 32 ∧ [255, 255, 255, 0] = [m0, m1, m2, m3] ∧
        (IPv4 10 0 0 0).Mask [255, 255, 255, 0] = [s0, s1, s2, s3] ∧
        createNetwork.fromCIDR "10.0.0.0/24" = .ok (IPv4 m0 m1 m2 m3,
          IPv4 ((s0 + (255 - m0)) % 256) ((s1 + (255 - m1)) % 256)
            ((s2 + (255 - m2)) % 256) ((s3 + (255 - m3)) % 256)) ∧
        (s0 + (255 - m0)) % 256 = s0 ||| (255 - m0) ∧
        (s1 + (255 - m1)) % 256 = s1 ||| (255 - m1) ∧
        (s2 + (255 - m2)) % 256 = s2 ||| (255 - m2) ∧
        (s3 + (255 - m3)) % 256 = s3 ||| (255 - m3)) :=
  ⟨⟨by decide,
      createNetwork_netmask_gateway.1 Unit script.meta () networkNet1
        { Name := "net1", DisplayText := "net1", NetworkOfferingID := id2, ZoneID := id1,
          Netmask := IPv4zero, Gateway := IPv4zero } (by decide)⟩,
    createNetwork_netmask_gateway.2.1 Unit script.meta () () () networkNet1
      ⟨id1, "ch-gva-2"⟩ ⟨id2, "privnet", false⟩ rfl rfl rfl,
    by decide,
    createNetwork_netmask_gateway.2.2.1 "10.0.0.0/24" (IPv4 10 0 0 0)
      ⟨[10, 0, 0, 0], [255, 255, 255, 0]⟩ (by decide) (by decide)⟩

/-- The gateway `createNetwork` computes for "net1": no record holds a `cidr`,
the addresses of lines 113-142 are the zero address twice, and under the
netmask `0.0.0.0` the address `10.0.0.1` has the masked value of the gateway
`0.0.0.0` and is above it. -/
theorem createNetwork_gateway_counterexample :
    (¬ ∃ d : NetworkData, d.GetOk "cidr" = some "10.0.0.0/24") ∧
    createNetwork.addresses networkNet1 = .ok (IPv4 0 0 0 0, IPv4 0 0 0 0) ∧
    (IPv4 10 0 0 1).Mask [0, 0, 0, 0] = (IPv4 0 0 0 0).Mask [0, 0, 0, 0] ∧
    ¬ bigEndian32 10 0 0 1 ≤ bigEndian32 0 0 0 0 := by
  refine ⟨?_, by decide, by decide, by decide⟩
  rintro ⟨d, hd⟩
  rw [NetworkData.GetOk_cidr] at hd
  cases hd

/-- C2, as amended. The schema of the network resource declares no `cidr`, so
the gateway `createNetwork` computes is the zero address for every record. The
CIDR block of lines 117-141, on every text that parses as an IPv4 CIDR, yields
as gateway the last address of the subnet: masking the gateway with the
netmask gives the subnet address back, and every IPv4 address whose masked
value is the subnet address is at most the gateway, both read as 32-bit
big-endian integers. -/
theorem createNetwork_gateway_last_address :
    (∀ d : NetworkData, createNetwork.addresses d = .ok (IPv4zero, IPv4zero)) ∧
    (∀ (text : String) (ip : IP) (ipnet : IPNet),
      ParseCIDR text = .ok (ip, ipnet) → ipnet.Mask.length = 4 →
      ∃ m0 m1 m2 m3 g0 g1 g2 g3,
        ipnet.Mask = [m0, m1, m2, m3] ∧
        createNetwork.fromCIDR text = .ok (IPv4 m0 m1 m2 m3, IPv4 g0 g1 g2 g3) ∧
        (g0 < 256 ∧ g1 < 256 ∧ g2 < 256 ∧ g3 < 256) ∧
        (IPv4 g0 g1 g2 g3).Mask ipnet.Mask = ip.Mask ipnet.Mask ∧
        ∀ x0 x1 x2 x3, x0 < 256 → x1 < 256 → x2 < 256 → x3 < 256 →
          (IPv4 x0 x1 x2 x3).Mask ipnet.Mask = ip.Mask ipnet.Mask →
          bigEndian32 x0 x1 x2 x3 ≤ bigEndian32 g0 g1 g2 g3) := by
  refine ⟨createNetwork.addresses_zero, ?_⟩
  intro text ip ipnet hparse h4
  obtain ⟨a, b, c, e, n, m0, m1, m2, m3, ⟨ha, hb, hc, he, hn⟩, ⟨h0, h1, h2, h3⟩, hip, hm,
    hmask4, hsub, haddr⟩ := createNetwork.fromCIDR_v4 text ip ipnet hparse h4
  obtain ⟨f0, -, k0, -⟩ := octet_facts a ha m0 h0
  obtain ⟨f1, -, k1, -⟩ := octet_facts b hb m1 h1
  obtain ⟨f2, -, k2, -⟩ := octet_facts c hc m2 h2
  obtain ⟨f3, -, k3, -⟩ := octet_facts e he m3 h3
  rw [f0, f1, f2, f3] at haddr
  refine ⟨m0, m1, m2, m3, _, _, _, _, hmask4, haddr,
    ⟨Nat.mod_lt _ (by norm_num), Nat.mod_lt _ (by norm_num), Nat.mod_lt _ (by norm_num),
      Nat.mod_lt _ (by norm_num)⟩, ?_, ?_⟩
  · rw [hsub, hmask4, IPv4_Mask, k0, k1, k2, k3]
  · intro x0 x1 x2 x3 hx0 hx1 hx2 hx3 hx
    rw [hsub, hmask4, IPv4_Mask] at hx
    simp only [List.cons.injEq, and_true] at hx
    obtain ⟨e0, e1, e2, e3⟩ := hx
    have l0 := (octet_facts x0 hx0 m0 h0).2.2.2
    have l1 := (octet_facts x1 hx1 m1 h1).2.2.2
    have l2 := (octet_facts x2 hx2 m2 h2).2.2.2
    have l3 := (octet_facts x3 hx3 m3 h3).2.2.2
    rw [e0] at l0
    rw [e1] at l1
    rw [e2] at l2
    rw [e3] at l3
    unfold bigEndian32
    omega

/-- The CIDR block on `10.0.0.0/24`: its gateway is the last address of the
subnet. -/
theorem createNetwork_gateway_last_address_witness :
    ParseCIDR "10.0.0.0/24" = .ok (IPv4 10 0 0 0, ⟨[10, 0, 0, 0], [255, 255, 255, 0]⟩) ∧
    ∃ m0 m1 m2 m3 g0 g1 g2 g3,
      [255, 255, 255, 0] = [m0, m1, m2, m3] ∧
      createNetwork.fromCIDR "10.0.0.0/24" = .ok (IPv4 m0 m1 m2 m3, IPv4 g0 g1 g2 g3) ∧
      (g0 < 256 ∧ g1 < 256 ∧ g2 < 256 ∧ g3 < 256) ∧
      (IPv4 g0 g1 g2 g3).Mask [255, 255, 255, 0] = (IPv4 10 0 0 0).Mask [255, 255, 255, 0] ∧
      ∀ x0 x1 x2 x3, x0 < 256 → x1 < 256 → x2 < 256 → x3 < 256 →
        (IPv4 x0 x1 x2 x3).Mask [255, 255, 255, 0] = (IPv4 10 0 0 0).Mask [255, 255, 255, 0] →
        bigEndian32 x0 x1 x2 x3 ≤ bigEndian32 g0 g1 g2 g3 :=
  ⟨by decide,
    createNetwork_gateway_last_address.2 "10.0.0.0/24" (IPv4 10 0 0 0)
      ⟨[10, 0, 0, 0], [255, 255, 255, 0]⟩ (by decide) (by decide)⟩

/-! ## `createSecurityGroupRule`: the target of a rule -/

/-- Every call of lines 178-211 is one of the calls made before, or the
authorize command carrying the two lists handed over. -/
theorem createSecurityGroupRule.authorize_calls {W : Type} (m : Meta W) (w : W) (d : RuleData)
    (securityGroup : SecurityGroup) (before : List Call) (cidrList : List CIDR)
    (groupList : List UserSecurityGroup) :
    ∀ call ∈ (createSecurityGroupRule.authorize m w d securityGroup before cidrList
        groupList).calls,
      call ∈ before ∨ ∃ cmd, call.authorize = some cmd ∧ cmd.CIDRList = cidrList ∧
        cmd.UserSecurityGroupList = groupList := by
  intro call hcall
  unfold createSecurityGroupRule.authorize at hcall
  dsimp only at hcall
  repeat' split at hcall
  all_goals
    simp only [List.mem_append, List.mem_singleton] at hcall
    rcases hcall with h | h
    · exact Or.inl h
    · exact Or.inr ⟨_, by rw [h]; rfl, rfl, rfl⟩

/-- C3. In `createSecurityGroupRule`: if neither `cidr` nor
`user_security_group_id` nor `user_security_group` is populated, the operation
returns an error and issues no authorize command; whenever an authorize command
is issued, exactly one of its `CIDRList` and `UserSecurityGroupList` has exactly
one element and the other is empty; and when `cidr` is populated the CIDR is
the one chosen, whatever the user group keys hold. -/
theorem createSecurityGroupRule_target {W : Type} (m : Meta W) (w : W) (d : RuleData) :
    (d.cidr = "" ∧ d.user_security_group_id = "" ∧ d.user_security_group = "" →
      (∃ err, (createSecurityGroupRule m w d).ret = .error err) ∧
      ∀ call ∈ (createSecurityGroupRule m w d).calls, call.authorize = none) ∧
    (∀ call ∈ (createSecurityGroupRule m w d).calls, ∀ cmd, call.authorize = some cmd →
      (cmd.CIDRList.length = 1 ∧ cmd.UserSecurityGroupList = []) ∨
      (cmd.CIDRList = [] ∧ cmd.UserSecurityGroupList.length = 1)) ∧
    (d.cidr ≠ "" →
      ∀ call ∈ (createSecurityGroupRule m w d).calls, ∀ cmd, call.authorize = some cmd →
        ∃ c, egoscale.ParseCIDR d.cidr = .ok c ∧ cmd.CIDRList = [c] ∧
          cmd.UserSecurityGroupList = []) := by
  refine ⟨?_, ?_, ?_⟩
  · rintro ⟨h1, h2, h3⟩
    unfold createSecurityGroupRule
    dsimp only
    repeat' split
    all_goals simp_all [Call.authorize]
  · intro call hcall cmd hcmd
    unfold createSecurityGroupRule at hcall
    dsimp only at hcall
    repeat' split at hcall
    all_goals first
      | (simp only [List.mem_cons, List.mem_singleton, List.not_mem_nil, or_false] at hcall
         rcases hcall with h | h <;> (rw [h] at hcmd; simp [Call.authorize] at hcmd))
      | (simp only [List.mem_singleton, List.not_mem_nil] at hcall
         rw [hcall] at hcmd; simp [Call.authorize] at hcmd)
      | (simp only [List.not_mem_nil] at hcall)
      | (rcases createSecurityGroupRule.authorize_calls _ _ _ _ _ _ _ call hcall with h | h
         · simp only [List.mem_cons, List.mem_singleton, List.not_mem_nil, or_false] at h
           rcases h with h | h <;> (rw [h] at hcmd; simp [Call.authorize] at hcmd)
         · obtain ⟨cmd1, e1, e2, e3⟩ := h
           rw [e1] at hcmd
           cases hcmd
           simp [e2, e3])
      | (rcases createSecurityGroupRule.authorize_calls _ _ _ _ _ _ _ call hcall with h | h
         · simp only [List.mem_singleton, List.not_mem_nil] at h
           rw [h] at hcmd; simp [Call.authorize] at hcmd
         · obtain ⟨cmd1, e1, e2, e3⟩ := h
           rw [e1] at hcmd
           cases hcmd
           simp [e2, e3])
  · intro hcidr call hcall cmd hcmd
    unfold createSecurityGroupRule at hcall
    dsimp only at hcall
    repeat' split at hcall
    all_goals first
      | contradiction
      | (simp only [List.mem_singleton, List.not_mem_nil] at hcall
         rw [hcall] at hcmd; simp [Call.authorize] at hcmd)
      | (simp only [List.not_mem_nil] at hcall)
      | (rcases createSecurityGroupRule.authorize_calls _ _ _ _ _ _ _ call hcall with h | h
         · simp only [List.mem_singleton, List.not_mem_nil] at h
           rw [h] at hcmd; simp [Call.authorize] at hcmd
         · obtain ⟨cmd1, e1, e2, e3⟩ := h
           rw [e1] at hcmd
           cases hcmd
           exact ⟨_, by assumption, e2, e3⟩)

/-- The two runs of C3: a record with no target ends in an error without an
authorize command; a record with both a CIDR and a user group leads to an
authorize command that carries the CIDR alone. -/
theorem createSecurityGroupRule_target_witness :
    ((∃ err, (createSecurityGroupRule script.meta () ruleNeither).ret = .error err) ∧
      ∀ call ∈ (createSecurityGroupRule script.meta () ruleNeither).calls,
        call.authorize = none) ∧
    Call.Request (.AuthorizeSecurityGroupIngress authorizeBoth) ∈
      (createSecurityGroupRule script.meta () ruleBoth).calls ∧
    ∃ c, egoscale.ParseCIDR ruleBoth.cidr = .ok c ∧ authorizeBoth.CIDRList = [c] ∧
      authorizeBoth.UserSecurityGroupList = [] :=
  ⟨(createSecurityGroupRule_target script.meta () ruleNeither).1 ⟨rfl, rfl, rfl⟩,
    by decide,
    (createSecurityGroupRule_target script.meta () ruleBoth).2.2 (by decide)
      (Call.Request (.AuthorizeSecurityGroupIngress authorizeBoth)) (by decide)
      authorizeBoth rfl⟩

/-! ## `createNetwork`: a failure of the tags -/

/-- C4. In `createNetwork`, whenever the `CreateNetwork` command succeeds with a
new network and the tag request that follows fails with error `err`, a
`DeleteNetwork` command for exactly that network's identifier is issued next,
and the operation returns `err`, whatever the delete answers. -/
theorem createNetwork_tag_failure {W : Type} (m : Meta W) (w w1 w2 w3 w4 : W)
    (d : NetworkData) (zone : Zone) (networkOffering : NetworkOffering) (netmask gateway : IP)
    (network : Network) (cmd : Command) (err : Error)
    (hz : m.getZoneByName w d.zone = (.ok zone, w1))
    (ho : m.getNetworkOfferingByName w1 d.network_offering = (.ok networkOffering, w2))
    (hs : networkOffering.SpecifyIPRanges = false)
    (haddr : createNetwork.addresses d = .ok (netmask, gateway))
    (hcreate : m.client.RequestWithContext w2 (.CreateNetwork
        { Name := d.name,
          DisplayText := if d.display_text = "" then d.name else d.display_text,
          NetworkOfferingID := networkOffering.ID, ZoneID := zone.ID,
          Netmask := netmask, Gateway := gateway }) = (.ok network, w3))
    (htags : m.createTags { d with Id := network.ID.String } "tags" "Network" = .ok (some cmd))
    (hfail : m.client.BooleanRequestWithContext w3 cmd = (some err, w4)) :
    (createNetwork m w d).ret = .error err ∧
    (createNetwork m w d).calls =
      [.getZoneByName d.zone, .getNetworkOfferingByName d.network_offering,
        .Request (.CreateNetwork
          { Name := d.name,
            DisplayText := if d.display_text = "" then d.name else d.display_text,
            NetworkOfferingID := networkOffering.ID, ZoneID := zone.ID,
            Netmask := netmask, Gateway := gateway }),
        .BooleanRequest cmd, .BooleanRequest (.DeleteNetwork network.ID)] ∧
    (createNetwork m w d).w =
      (m.client.BooleanRequestWithContext w4 (.DeleteNetwork network.ID)).2 := by
  unfold createNetwork
  simp only [hz, ho, hs, haddr, Bool.false_eq_true, if_false, hcreate, htags, hfail]
  simp

/-- The runs of C4 on `net1`: the tag request fails with a transport error; the
returned error is that one both when the delete succeeds and when it fails. -/
theorem createNetwork_tag_failure_witness :
    ((createNetwork scriptTagFailure.meta () networkTagged).ret = .error transportError ∧
      (createNetwork scriptTagFailure.meta () networkTagged).calls =
        [.getZoneByName "ch-gva-2", .getNetworkOfferingByName "privnet",
          .Request (.CreateNetwork
            { Name := "net1", DisplayText := "net1", NetworkOfferingID := id2, ZoneID := id1,
              Netmask := IPv4zero, Gateway := IPv4zero }),
          .BooleanRequest (.CreateTags "Network" idNet.String [⟨"env", "prod"⟩]),
          .BooleanRequest (.DeleteNetwork idNet)] ∧
      (createNetwork scriptTagFailure.meta () networkTagged).w = ()) ∧
    (createNetwork scriptTagDeleteFailure.meta () networkTagged).ret = .error transportError :=
  ⟨createNetwork_tag_failure scriptTagFailure.meta () () () () () networkTagged
      ⟨id1, "ch-gva-2"⟩ ⟨id2, "privnet", false⟩ IPv4zero IPv4zero net1
      (.CreateTags "Network" idNet.String [⟨"env", "prod"⟩]) transportError
      rfl rfl rfl (by decide) rfl (by decide) rfl,
    (createNetwork_tag_failure scriptTagDeleteFailure.meta () () () () () networkTagged
      ⟨id1, "ch-gva-2"⟩ ⟨id2, "privnet", false⟩ IPv4zero IPv4zero net1
      (.CreateTags "Network" idNet.String [⟨"env", "prod"⟩]) transportError
      rfl rfl rfl (by decide) rfl (by decide) rfl).1⟩

/-! ## `existsNetwork`, `existsNic` -/

/-- A text that parses as a UUID is not empty. -/
theorem ParseUUID_ne_empty (s : String) (id : UUID) (h : ParseUUID s = .ok id) : s ≠ "" := by
  intro hs
  subst hs
  have hempty : ParseUUID "" = .error (.parse "uuid" "") := by decide
  rw [hempty] at h
  cases h

/-- C5. In `existsNetwork` and `existsNic`, once the identifiers parse: a lookup
that returns zero results yields `(false, nil)` and clears the local
identifier; a lookup that fails with a not-found error yields `(false, nil)`
(the identifier is cleared by `handleNotFound`); a lookup that fails with any
other error `err` yields `(previous-id != "", err)`, which is `(true, err)`
because the previous identifier parsed as a UUID. -/
theorem exists_lookup_outcomes {W : Type} (m : Meta W) (w w1 : W) :
    (∀ (d : NetworkData) (id : UUID), ParseUUID d.Id = .ok id →
      (∀ networks : ListNetworksResponse,
        m.client.RequestWithContext w (.ListNetworks id) = (.ok networks, w1) →
        networks.Count = 0 →
        (existsNetwork m w d).ret = (false, none) ∧ (existsNetwork m w d).d.Id = "") ∧
      (∀ msg, m.client.RequestWithContext w (.ListNetworks id) =
          (.error (.response true msg), w1) →
        (existsNetwork m w d).ret = (false, none) ∧ (existsNetwork m w d).d.Id = "") ∧
      (∀ err, m.client.RequestWithContext w (.ListNetworks id) = (.error err, w1) →
        (∀ msg, err ≠ .response true msg) →
        (existsNetwork m w d).ret = (decide (d.Id ≠ ""), some err) ∧
        (existsNetwork m w d).ret = (true, some err) ∧ (existsNetwork m w d).d = d)) ∧
    (∀ (d : NicData) (id vmID : UUID), ParseUUID d.Id = .ok id →
      ParseUUID d.compute_id = .ok vmID →
      (∀ nics : ListNicsResponse,
        m.client.RequestWithContext w (.ListNics id vmID) = (.ok nics, w1) →
        nics.Count = 0 →
        (existsNic m w d).ret = (false, none) ∧ (existsNic m w d).d.Id = "") ∧
      (∀ msg, m.client.RequestWithContext w (.ListNics id vmID) =
          (.error (.response true msg), w1) →
        (existsNic m w d).ret = (false, none) ∧ (existsNic m w d).d.Id = "") ∧
      (∀ err, m.client.RequestWithContext w (.ListNics id vmID) = (.error err, w1) →
        (∀ msg, err ≠ .response true msg) →
        (existsNic m w d).ret = (decide (d.Id ≠ ""), some err) ∧
        (existsNic m w d).ret = (true, some err) ∧ (existsNic m w d).d = d)) := by
  constructor
  · intro d id hid
    have hne := ParseUUID_ne_empty _ _ hid
    refine ⟨?_, ?_, ?_⟩
    · intro networks hreq hcount
      simp [existsNetwork, hid, hreq, hcount]
    · intro msg hreq
      simp [existsNetwork, hid, hreq, handleNotFound, ResourceData.SetId]
    · intro err hreq hnf
      have hh : handleNotFound d err = (d, some err) := by
        unfold handleNotFound
        split
        · exact absurd rfl (hnf _)
        · rfl
      simp [existsNetwork, hid, hreq, hh, hne]
  · intro d id vmID hid hvm
    have hne := ParseUUID_ne_empty _ _ hid
    refine ⟨?_, ?_, ?_⟩
    · intro nics hreq hcount
      simp [existsNic, hid, hvm, hreq, hcount]
    · intro msg hreq
      simp [existsNic, hid, hvm, hreq, handleNotFound, ResourceData.SetId]
    · intro err hreq hnf
      have hh : handleNotFound d err = (d, some err) := by
        unfold handleNotFound
        split
        · exact absurd rfl (hnf _)
        · rfl
      simp [existsNic, hid, hvm, hreq, hh, hne]

/-- The runs of C5 on a known network and a known NIC: an empty list, the
not-found response, and a transport error. -/
theorem exists_lookup_outcomes_witness :
    (((existsNetwork scriptEmpty.meta () networkKnown).ret = (false, none) ∧
        (existsNetwork scriptEmpty.meta () networkKnown).d.Id = "") ∧
      ((existsNetwork scriptNotFound.meta () networkKnown).ret = (false, none) ∧
        (existsNetwork scriptNotFound.meta () networkKnown).d.Id = "") ∧
      (existsNetwork scriptTransport.meta () networkKnown).ret =
          (decide (networkKnown.Id ≠ ""), some transportError) ∧
        (existsNetwork scriptTransport.meta () networkKnown).ret = (true, some transportError) ∧
        (existsNetwork scriptTransport.meta () networkKnown).d = networkKnown) ∧
    ((existsNic scriptEmpty.meta () nicKnown).ret = (false, none) ∧
        (existsNic scriptEmpty.meta () nicKnown).d.Id = "") ∧
      ((existsNic scriptNotFound.meta () nicKnown).ret = (false, none) ∧
        (existsNic scriptNotFound.meta () nicKnown).d.Id = "") ∧
      (existsNic scriptTransport.meta () nicKnown).ret =
          (decide (nicKnown.Id ≠ ""), some transportError) ∧
        (existsNic scriptTransport.meta () nicKnown).ret = (true, some transportError) ∧
        (existsNic scriptTransport.meta () nicKnown).d = nicKnown :=
  ⟨⟨((exists_lookup_outcomes scriptEmpty.meta () ()).1 networkKnown idNet (by decide)).1
        ⟨0, []⟩ rfl rfl,
      ((exists_lookup_outcomes scriptNotFound.meta () ()).1 networkKnown idNet (by decide)).2.1
        "not found" rfl,
      ((exists_lookup_outcomes scriptTransport.meta () ()).1 networkKnown idNet (by decide)).2.2
        transportError rfl (by intro msg h; simp [transportError] at h)⟩,
    ((exists_lookup_outcomes scriptEmpty.meta () ()).2 nicKnown id3 id1 (by decide)
        (by decide)).1 ⟨0, []⟩ rfl rfl,
    ((exists_lookup_outcomes scriptNotFound.meta () ()).2 nicKnown id3 id1 (by decide)
        (by decide)).2.1 "not found" rfl,
    ((exists_lookup_outcomes scriptTransport.meta () ()).2 nicKnown id3 id1 (by decide)
        (by decide)).2.2 transportError rfl (by intro msg h; simp [transportError] at h)⟩

/-! ## `deleteNic` -/

theorem NicByNetworkID_scan_eq_none (networkID : UUID) (nics : List Nic) :
    NicByNetworkID.scan networkID nics = none ↔ ∀ nic ∈ nics, nic.NetworkID ≠ networkID := by
  induction nics with
  | nil => simp [NicByNetworkID.scan]
  | cons nic rest ih =>
    unfold NicByNetworkID.scan
    by_cases h : nic.NetworkID = networkID
    · simp [h]
    · simp [h, ih]

/-- C6. In `deleteNic`, for every machine object the `RemoveNicFromVirtualMachine`
command returns: if it still contains a NIC whose network identifier equals the
declared `network_id`, the operation returns an error and the local identifier
is left unchanged; if it contains no such NIC, the operation returns no error
and the local identifier is cleared to the empty string. -/
theorem deleteNic_residual_attachment {W : Type} (m : Meta W) (w w1 : W) (d : NicData)
    (id vmID networkID : UUID) (vm : VirtualMachine)
    (hid : ParseUUID d.Id = .ok id) (hvm : ParseUUID d.compute_id = .ok vmID)
    (hnet : ParseUUID d.network_id = .ok networkID)
    (hresp : m.client.RequestWithContext w (.RemoveNicFromVirtualMachine id vmID) =
      (.ok vm, w1)) :
    ((∃ nic ∈ vm.Nic, nic.NetworkID = networkID) →
      (∃ err, (deleteNic m w d).ret = .error err) ∧ (deleteNic m w d).d.Id = d.Id) ∧
    ((∀ nic ∈ vm.Nic, nic.NetworkID ≠ networkID) →
      (deleteNic m w d).ret = .ok () ∧ (deleteNic m w d).d.Id = "") := by
  constructor
  · intro hex
    have hsome : NicByNetworkID.scan networkID vm.Nic ≠ none := by
      rw [Ne, NicByNetworkID_scan_eq_none]
      push_neg
      exact hex
    cases hscan : NicByNetworkID.scan networkID vm.Nic with
    | none => exact absurd hscan hsome
    | some nic =>
      simp [deleteNic, hid, hvm, hnet, hresp, VirtualMachine.NicByNetworkID, hscan]
  · intro hall
    have hnone := (NicByNetworkID_scan_eq_none networkID vm.Nic).mpr hall
    simp [deleteNic, hid, hvm, hnet, hresp, VirtualMachine.NicByNetworkID, hnone]

/-- The runs of C6 on the NIC of machine `id1` on network `id2`: the machine
comes back still holding a NIC on that network, or without any. -/
theorem deleteNic_residual_attachment_witness :
    ((∃ err, (deleteNic script.meta () nicKnown).ret = .error err) ∧
      (deleteNic script.meta () nicKnown).d.Id = nicKnown.Id) ∧
    ((deleteNic scriptNoNic.meta () nicKnown).ret = .ok () ∧
      (deleteNic scriptNoNic.meta () nicKnown).d.Id = "") :=
  ⟨(deleteNic_residual_attachment script.meta () () nicKnown id3 id1 id2 ⟨id1, [nic9]⟩
      (by decide) (by decide) (by decide) rfl).1 ⟨nic9, by decide, by decide⟩,
    (deleteNic_residual_attachment scriptNoNic.meta () () nicKnown id3 id1 id2 ⟨id1, []⟩
      (by decide) (by decide) (by decide) rfl).2 (by decide)⟩

/-! ## `importSecurityGroup` -/

/-- The record an import makes for one rule. -/
theorem applySecurityGroupRule_id_type (d : RuleData) (group : SecurityGroup)
    (rule : EgressRule) :
    (applySecurityGroupRule d group rule).2 = none ∧
    (applySecurityGroupRule d group rule).1.Id = rule.RuleID.String ∧
    (applySecurityGroupRule d group rule).1.type = d.type := by
  unfold applySecurityGroupRule
  cases rule.CIDR <;> simp

theorem importSecurityGroup.rules_eq (securityGroup : SecurityGroup) (direction : String)
    (rules : List EgressRule) : ∀ resources : List Resource,
    importSecurityGroup.rules securityGroup direction rules resources =
      .ok (resources ++ rules.map fun rule => .exoscale_security_group_rule
        (applySecurityGroupRule { RuleData.empty with type := direction } securityGroup rule).1) := by
  induction rules with
  | nil => intro resources; simp [importSecurityGroup.rules]
  | cons rule rest ih =>
    intro resources
    unfold importSecurityGroup.rules
    dsimp only
    have h2 := (applySecurityGroupRule_id_type { RuleData.empty with type := direction }
      securityGroup rule).1
    split
    · rename_i heq
      rw [heq] at h2
      simp at h2
    · rename_i d1 heq
      rw [ih]
      simp [heq]

/-- C7. In `importSecurityGroup`, for every fetched security group with egress
rules `E` and ingress rules `I`, the import succeeds and returns a list of
length `1 + |E| + |I|`: the group record first, then one record per egress rule
in the order of `E`, each of type "EGRESS", then one record per ingress rule in
the order of `I`, each of type "INGRESS"; the identifier of each rule record is
the identifier of the remote rule at the same position. -/
theorem importSecurityGroup_order {W : Type} (m : Meta W) (w w1 : W) (d : SecurityGroupData)
    (sg : SecurityGroup) (gid : UUID)
    (hget : m.client.GetWithContext w (importSecurityGroup.reference d) = (.ok sg, w1))
    (hid : sg.ID = some gid) :
    ∃ (resources : List Resource) (egress ingress : List RuleData),
      (importSecurityGroup m w d).ret = .ok resources ∧
      resources.length = 1 + sg.EgressRule.length + sg.IngressRule.length ∧
      resources =
        .exoscale_security_group
            { Id := gid.String, name := sg.Name, description := sg.Description } ::
          (egress.map Resource.exoscale_security_group_rule ++
            ingress.map Resource.exoscale_security_group_rule) ∧
      egress.map (fun r => r.Id) = sg.EgressRule.map (fun rule => rule.RuleID.String) ∧
      (∀ r ∈ egress, r.type = "EGRESS") ∧
      ingress.map (fun r => r.Id) = sg.IngressRule.map (fun rule => rule.RuleID.String) ∧
      (∀ r ∈ ingress, r.type = "INGRESS") := by
  refine ⟨_,
    sg.EgressRule.map fun rule =>
      (applySecurityGroupRule { RuleData.empty with type := "EGRESS" } sg rule).1,
    sg.IngressRule.map fun rule =>
      (applySecurityGroupRule { RuleData.empty with type := "INGRESS" } sg rule).1,
    ?_, ?_, rfl, ?_, ?_, ?_, ?_⟩
  · unfold importSecurityGroup
    simp only [hget, applySecurityGroup, hid, importSecurityGroup.rules_eq]
    simp [Function.comp_def]
  · simp
    omega
  · simp [applySecurityGroupRule_id_type]
  · intro r hr
    obtain ⟨rule, -, rfl⟩ := List.mem_map.mp hr
    exact (applySecurityGroupRule_id_type _ _ _).2.2
  · simp [applySecurityGroupRule_id_type]
  · intro r hr
    obtain ⟨rule, -, rfl⟩ := List.mem_map.mp hr
    exact (applySecurityGroupRule_id_type _ _ _).2.2

/-- The import of the group "web", which has one egress rule (`id1`) and two
ingress rules (`id2`, `id3`): four records, in the order group, egress rule,
first ingress rule, second ingress rule. -/
theorem importSecurityGroup_order_witness :
    (∃ (resources : List Resource) (egress ingress : List RuleData),
      (importSecurityGroup script.meta () webImport).ret = .ok resources ∧
      resources.length = 1 + web.EgressRule.length + web.IngressRule.length ∧
      resources =
        .exoscale_security_group
            { Id := idNet.String, name := web.Name, description := web.Description } ::
          (egress.map Resource.exoscale_security_group_rule ++
            ingress.map Resource.exoscale_security_group_rule) ∧
      egress.map (fun r => r.Id) = web.EgressRule.map (fun rule => rule.RuleID.String) ∧
      (∀ r ∈ egress, r.type = "EGRESS") ∧
      ingress.map (fun r => r.Id) = web.IngressRule.map (fun rule => rule.RuleID.String) ∧
      (∀ r ∈ ingress, r.type = "INGRESS")) ∧
    (importSecurityGroup script.meta () webImport).ret = .ok
      [.exoscale_security_group { Id := idNet.String, name := "web", description := "" },
        .exoscale_security_group_rule
          (applySecurityGroupRule { RuleData.empty with type := "EGRESS" } web rule1).1,
        .exoscale_security_group_rule
          (applySecurityGroupRule { RuleData.empty with type := "INGRESS" } web rule2).1,
        .exoscale_security_group_rule
          (applySecurityGroupRule { RuleData.empty with type := "INGRESS" } web rule3).1] :=
  ⟨importSecurityGroup_order script.meta () () webImport web idNet rfl rfl, by decide⟩

/-! ## `readSecurityGroupRule`, `existsSecurityGroupRule` -/

theorem readSecurityGroupRule.scan_eq_find (id : String) (rules : List EgressRule) :
    readSecurityGroupRule.scan id rules =
      rules.find? (fun rule => decide (rule.RuleID.String = id)) := by
  induction rules with
  | nil => rfl
  | cons rule rest ih =>
    unfold readSecurityGroupRule.scan
    by_cases h : rule.RuleID.String = id
    · simp [h]
    · simp [h, ih]

theorem readSecurityGroupRule_scan_eq_none (id : String) (rules : List EgressRule) :
    readSecurityGroupRule.scan id rules = none ↔ ∀ rule ∈ rules, rule.RuleID.String ≠ id := by
  rw [readSecurityGroupRule.scan_eq_find]
  simp

/-- C8. In `readSecurityGroupRule`, for every fetched parent group and every
local identifier: the egress list is scanned before the ingress list and the
first rule whose identifier equals the local one is applied to the record, with
type "EGRESS" when it was found in the egress list and "INGRESS" when it was
found only in the ingress list; if no rule of either list has that identifier,
the local identifier is cleared to the empty string and no error is returned. -/
theorem readSecurityGroupRule_scan_order {W : Type} (m : Meta W) (w w1 : W) (d : RuleData)
    (sg0 sg : SecurityGroup) (href : securityGroupOf d = .ok sg0)
    (hget : m.client.GetWithContext w sg0 = (.ok sg, w1)) :
    (∀ rule, sg.EgressRule.find? (fun r => decide (r.RuleID.String = d.Id)) = some rule →
      (readSecurityGroupRule m w d).ret = .ok () ∧
      (readSecurityGroupRule m w d).d =
        (applySecurityGroupRule { d with type := "EGRESS" } sg rule).1 ∧
      (readSecurityGroupRule m w d).d.type = "EGRESS" ∧
      (readSecurityGroupRule m w d).d.Id = d.Id) ∧
    (sg.EgressRule.find? (fun r => decide (r.RuleID.String = d.Id)) = none →
      ∀ rule, sg.IngressRule.find? (fun r => decide (r.RuleID.String = d.Id)) = some rule →
      (readSecurityGroupRule m w d).ret = .ok () ∧
      (readSecurityGroupRule m w d).d =
        (applySecurityGroupRule { d with type := "INGRESS" } sg rule).1 ∧
      (readSecurityGroupRule m w d).d.type = "INGRESS" ∧
      (readSecurityGroupRule m w d).d.Id = d.Id) ∧
    ((∀ rule ∈ sg.EgressRule, rule.RuleID.String ≠ d.Id) →
      (∀ rule ∈ sg.IngressRule, rule.RuleID.String ≠ d.Id) →
      (readSecurityGroupRule m w d).ret = .ok () ∧
      (readSecurityGroupRule m w d).d = { d with Id := "" }) := by
  refine ⟨?_, ?_, ?_⟩
  · intro rule hfind
    have hid : rule.RuleID.String = d.Id := by
      have := List.find?_some hfind
      simpa using this
    have hap := applySecurityGroupRule_id_type { d with type := "EGRESS" } sg rule
    rw [← readSecurityGroupRule.scan_eq_find] at hfind
    simp [readSecurityGroupRule, href, hget, hfind, hap.1, hap.2.1, hap.2.2, hid,
      Outcome.ofError]
  · intro hnone rule hfind
    have hid : rule.RuleID.String = d.Id := by
      have := List.find?_some hfind
      simpa using this
    have hap := applySecurityGroupRule_id_type { d with type := "INGRESS" } sg rule
    rw [← readSecurityGroupRule.scan_eq_find] at hfind hnone
    simp [readSecurityGroupRule, href, hget, hfind, hnone, hap.1, hap.2.1, hap.2.2, hid,
      Outcome.ofError]
  · intro he hi
    have he1 := (readSecurityGroupRule_scan_eq_none d.Id sg.EgressRule).mpr he
    have hi1 := (readSecurityGroupRule_scan_eq_none d.Id sg.IngressRule).mpr hi
    simp [readSecurityGroupRule, href, hget, he1, hi1]

/-- The runs of C8 against the group "web": the egress rule `id1`, the ingress
rule `id2`, and a rule the group does not hold. -/
theorem readSecurityGroupRule_scan_order_witness :
    ((readSecurityGroupRule script.meta () ruleEgress).ret = .ok () ∧
      (readSecurityGroupRule script.meta () ruleEgress).d =
        (applySecurityGroupRule { ruleEgress with type := "EGRESS" } web rule1).1 ∧
      (readSecurityGroupRule script.meta () ruleEgress).d.type = "EGRESS" ∧
      (readSecurityGroupRule script.meta () ruleEgress).d.Id = ruleEgress.Id) ∧
    ((readSecurityGroupRule script.meta () ruleIngress).ret = .ok () ∧
      (readSecurityGroupRule script.meta () ruleIngress).d =
        (applySecurityGroupRule { ruleIngress with type := "INGRESS" } web rule2).1 ∧
      (readSecurityGroupRule script.meta () ruleIngress).d.type = "INGRESS" ∧
      (readSecurityGroupRule script.meta () ruleIngress).d.Id = ruleIngress.Id) ∧
    ((readSecurityGroupRule script.meta () ruleGone).ret = .ok () ∧
      (readSecurityGroupRule script.meta () ruleGone).d = { ruleGone with Id := "" }) :=
  ⟨(readSecurityGroupRule_scan_order script.meta () () ruleEgress webByName web rfl rfl).1
      rule1 (by decide),
    (readSecurityGroupRule_scan_order script.meta () () ruleIngress webByName web rfl rfl).2.1
      (by decide) rule2 (by decide),
    (readSecurityGroupRule_scan_order script.meta () () ruleGone webByName web rfl rfl).2.2
      (by decide) (by decide)⟩

/-! ## Validation and remote calls in the create operations -/

/-- C9, as stated, fails: `createSecurityGroupRule` on a record whose
`user_security_group_id` is the malformed text "db" ends in the parse error of
that text after it has fetched the parent group through the client. -/
theorem create_validation_counterexample :
    ruleBadUserGroup.user_security_group_id = "db" ∧
    ParseUUID "db" = .error (.parse "uuid" "db") ∧
    (createSecurityGroupRule script.meta () ruleBadUserGroup).ret =
      .error (.parse "uuid" "db") ∧
    (createSecurityGroupRule script.meta () ruleBadUserGroup).calls = [.Get webByName] ∧
    (createSecurityGroupRule script.meta () ruleBadUserGroup).calls ≠ [] := by
  decide

/-- C9, amended. On every run of a create operation that ends in a validation
error of a declared input, no creating command has been issued. The sequence of
remote calls is empty when the error is that of `network_id` or of `compute_id`
in `createNic`, or that of `security_group_id` in `createSecurityGroupRule`.
When the error is that of the `cidr` or of the `user_security_group_id` of
`createSecurityGroupRule`, the sequence is exactly the lookup of the parent
security group, which the operation makes before it checks them.
`createNetwork` has no such run: the schema declares no `cidr`, and lines
113-142 yield the zero addresses for every record. -/
theorem create_validation_before_creation {W : Type} (m : Meta W) (w : W) :
    (∀ (d : NicData) (err : Error), ParseUUID d.network_id = .error err →
      (createNic m w d).ret = .error err ∧ (createNic m w d).calls = []) ∧
    (∀ (d : NicData) (id : UUID) (err : Error), ParseUUID d.network_id = .ok id →
      ParseUUID d.compute_id = .error err →
      (createNic m w d).ret = .error err ∧ (createNic m w d).calls = []) ∧
    (∀ (d : RuleData) (err : Error), createSecurityGroupRule.reference d = .error err →
      (createSecurityGroupRule m w d).ret = .error err ∧
      (createSecurityGroupRule m w d).calls = []) ∧
    (∀ (d : RuleData) (q sg : SecurityGroup) (w1 : W) (err : Error),
      createSecurityGroupRule.reference d = .ok q →
      m.client.GetWithContext w q = (.ok sg, w1) →
      d.cidr ≠ "" → egoscale.ParseCIDR d.cidr = .error err →
      (createSecurityGroupRule m w d).ret = .error err ∧
      (createSecurityGroupRule m w d).calls = [.Get q] ∧
      ∀ call ∈ (createSecurityGroupRule m w d).calls, call.creates = false) ∧
    (∀ (d : RuleData) (q sg : SecurityGroup) (w1 : W) (err : Error),
      createSecurityGroupRule.reference d = .ok q →
      m.client.GetWithContext w q = (.ok sg, w1) →
      d.cidr = "" → d.user_security_group_id ≠ "" →
      ParseUUID d.user_security_group_id = .error err →
      (createSecurityGroupRule m w d).ret = .error err ∧
      (createSecurityGroupRule m w d).calls = [.Get q] ∧
      ∀ call ∈ (createSecurityGroupRule m w d).calls, call.creates = false) ∧
    (∀ d : NetworkData, createNetwork.addresses d = .ok (IPv4zero, IPv4zero)) := by
  refine ⟨?_, ?_, ?_, ?_, ?_, createNetwork.addresses_zero⟩
  · intro d err h
    simp [createNic, h]
  · intro d id err h1 h2
    simp [createNic, h1, h2]
  · intro d err h
    unfold createSecurityGroupRule.reference at h
    unfold createSecurityGroupRule
    dsimp only
    repeat' split
    all_goals simp_all
  · intro d q sg w1 err hq hget hcidr hparse
    unfold createSecurityGroupRule.reference at hq
    unfold createSecurityGroupRule
    dsimp only
    repeat' split
    all_goals simp_all [Call.creates]
  · intro d q sg w1 err hq hget hcidr hid hparse
    unfold createSecurityGroupRule.reference at hq
    unfold createSecurityGroupRule
    dsimp only
    repeat' split
    all_goals simp_all [Call.creates]

/-- The runs of the amended C9: NIC records with a malformed network and a
malformed machine identifier, and rule records with a malformed group
identifier, a malformed CIDR that reached the operation unvalidated, and a
malformed user group identifier. -/
theorem create_validation_before_creation_witness :
    ((createNic script.meta () nicBadNetwork).ret = .error (.parse "uuid" "net-9") ∧
      (createNic script.meta () nicBadNetwork).calls = []) ∧
    ((createNic script.meta () nicBadCompute).ret = .error (.parse "uuid" "vm-1") ∧
      (createNic script.meta () nicBadCompute).calls = []) ∧
    ((createSecurityGroupRule script.meta () ruleBadGroup).ret = .error (.parse "uuid" "web") ∧
      (createSecurityGroupRule script.meta () ruleBadGroup).calls = []) ∧
    ((createSecurityGroupRule script.meta () ruleBadCIDR).ret =
        .error (.parse "CIDR address" "bogus") ∧
      (createSecurityGroupRule script.meta () ruleBadCIDR).calls = [.Get webByName] ∧
      ∀ call ∈ (createSecurityGroupRule script.meta () ruleBadCIDR).calls,
        call.creates = false) ∧
    ((createSecurityGroupRule script.meta () ruleBadUserGroup).ret =
        .error (.parse "uuid" "db") ∧
      (createSecurityGroupRule script.meta () ruleBadUserGroup).calls = [.Get webByName] ∧
      ∀ call ∈ (createSecurityGroupRule script.meta () ruleBadUserGroup).calls,
        call.creates = false) :=
  ⟨(create_validation_before_creation script.meta ()).1 nicBadNetwork _ (by decide),
    (create_validation_before_creation script.meta ()).2.1 nicBadCompute id2 _ (by decide)
      (by decide),
    (create_validation_before_creation script.meta ()).2.2.1 ruleBadGroup _ (by decide),
    (create_validation_before_creation script.meta ()).2.2.2.1 ruleBadCIDR webByName web ()
      (.parse "CIDR address" "bogus") (by decide) rfl (by decide) (by decide),
    (create_validation_before_creation script.meta ()).2.2.2.2.1 ruleBadUserGroup webByName web
      () (.parse "uuid" "db") (by decide) rfl (by decide) (by decide) (by decide)⟩

theorem UUID.String_ne_empty (u : UUID) : u.String ≠ "" := by
  intro h
  have hc := u.canonical
  unfold UUID.String at h
  rw [h] at hc
  simp [UUID.wellFormed] at hc

theorem existsSecurityGroupRule.scan_iff (id : String) (rules : List EgressRule) :
    existsSecurityGroupRule.scan id rules = true ↔ ∃ rule ∈ rules, rule.RuleID.String = id := by
  induction rules with
  | nil => simp [existsSecurityGroupRule.scan]
  | cons rule rest ih =>
    unfold existsSecurityGroupRule.scan
    by_cases h : rule.RuleID.String = id
    · simp [h]
    · simp [h, ih]

/-- When one of the two lists holds a rule with the local identifier,
`readSecurityGroupRule` returns no error and keeps the identifier. -/
theorem readSecurityGroupRule.found {W : Type} (m : Meta W) (w w1 : W) (d : RuleData)
    (sg0 sg : SecurityGroup) (href : securityGroupOf d = .ok sg0)
    (hget : m.client.GetWithContext w sg0 = (.ok sg, w1))
    (hex : (∃ rule ∈ sg.EgressRule, rule.RuleID.String = d.Id) ∨
      ∃ rule ∈ sg.IngressRule, rule.RuleID.String = d.Id) :
    (readSecurityGroupRule m w d).ret = .ok () ∧ (readSecurityGroupRule m w d).d.Id = d.Id := by
  cases he : readSecurityGroupRule.scan d.Id sg.EgressRule with
  | some rule =>
    have hid : rule.RuleID.String = d.Id := by
      rw [readSecurityGroupRule.scan_eq_find] at he
      have := List.find?_some he
      simpa using this
    have hap := applySecurityGroupRule_id_type { d with type := "EGRESS" } sg rule
    simp [readSecurityGroupRule, href, hget, he, hap.1, hap.2.1, hid, Outcome.ofError]
  | none =>
    cases hi : readSecurityGroupRule.scan d.Id sg.IngressRule with
    | some rule =>
      have hid : rule.RuleID.String = d.Id := by
        rw [readSecurityGroupRule.scan_eq_find] at hi
        have := List.find?_some hi
        simpa using this
      have hap := applySecurityGroupRule_id_type { d with type := "INGRESS" } sg rule
      simp [readSecurityGroupRule, href, hget, he, hi, hap.1, hap.2.1, hid, Outcome.ofError]
    | none =>
      exfalso
      rw [readSecurityGroupRule_scan_eq_none] at he hi
      rcases hex with ⟨rule, hmem, hid⟩ | ⟨rule, hmem, hid⟩
      · exact he rule hmem hid
      · exact hi rule hmem hid

/-- C10, as stated, fails: for the ingress rule `id2` of the group "web" stored
with the type "ingress", which the schema accepts, `readSecurityGroupRule`
finds the rule and `existsSecurityGroupRule` returns `(false, nil)`. -/
theorem existsSecurityGroupRule_counterexample :
    ToUpper ruleIngressLower.type = "INGRESS" ∧
    (existsSecurityGroupRule script.meta () ruleIngressLower).ret = (false, none) ∧
    (readSecurityGroupRule script.meta () ruleIngressLower).ret = .ok () ∧
    (readSecurityGroupRule script.meta () ruleIngressLower).d.Id =
      "00000000-0000-0000-0000-000000000002" ∧
    (readSecurityGroupRule script.meta () ruleIngressLower).d.Id ≠ "" := by
  decide

/-- C10, amended. For every fetched parent group, every local identifier and
every stored type: `existsSecurityGroupRule` returns `(true, nil)` exactly when
the stored type is exactly "EGRESS" and the egress list holds a rule with the
local identifier, or exactly "INGRESS" and the ingress list holds one, and it
returns `(false, nil)` otherwise; whenever it returns `(true, nil)`,
`readSecurityGroupRule` on the same inputs finds the rule (returns no error
and leaves the local identifier as it was, non-empty). -/
theorem existsSecurityGroupRule_lookup {W : Type} (m : Meta W) (w w1 : W) (d : RuleData)
    (sg0 sg : SecurityGroup) (href : securityGroupOf d = .ok sg0)
    (hget : m.client.GetWithContext w sg0 = (.ok sg, w1)) :
    ((existsSecurityGroupRule m w d).ret = (true, none) ↔
      (d.type = "EGRESS" ∧ ∃ rule ∈ sg.EgressRule, rule.RuleID.String = d.Id) ∨
      (d.type = "INGRESS" ∧ ∃ rule ∈ sg.IngressRule, rule.RuleID.String = d.Id)) ∧
    ((existsSecurityGroupRule m w d).ret ≠ (true, none) →
      (existsSecurityGroupRule m w d).ret = (false, none)) ∧
    ((existsSecurityGroupRule m w d).ret = (true, none) →
      (readSecurityGroupRule m w d).ret = .ok () ∧
      (readSecurityGroupRule m w d).d.Id = d.Id ∧
      (readSecurityGroupRule m w d).d.Id ≠ "") := by
  have hiff : (existsSecurityGroupRule m w d).ret = (true, none) ↔
      (d.type = "EGRESS" ∧ ∃ rule ∈ sg.EgressRule, rule.RuleID.String = d.Id) ∨
      (d.type = "INGRESS" ∧ ∃ rule ∈ sg.IngressRule, rule.RuleID.String = d.Id) := by
    rw [← existsSecurityGroupRule.scan_iff, ← existsSecurityGroupRule.scan_iff]
    unfold existsSecurityGroupRule
    simp only [href, hget]
    by_cases h1 : d.type = "EGRESS"
    · have h2 : ¬ d.type = "INGRESS" := by rw [h1]; decide
      cases hs : existsSecurityGroupRule.scan d.Id sg.EgressRule <;> simp [h1, hs]
    · by_cases h2 : d.type = "INGRESS"
      · cases hs : existsSecurityGroupRule.scan d.Id sg.IngressRule <;> simp [h1, h2, hs]
      · simp [h1, h2]
  refine ⟨hiff, ?_, ?_⟩
  · intro _
    unfold existsSecurityGroupRule
    simp only [href, hget]
    repeat' split
    all_goals simp_all [existsSecurityGroupRule]
  · intro htrue
    have hex : (∃ rule ∈ sg.EgressRule, rule.RuleID.String = d.Id) ∨
        ∃ rule ∈ sg.IngressRule, rule.RuleID.String = d.Id := by
      rcases hiff.mp htrue with ⟨-, h⟩ | ⟨-, h⟩
      · exact Or.inl h
      · exact Or.inr h
    obtain ⟨hret, hid⟩ := readSecurityGroupRule.found m w w1 d sg0 sg href hget hex
    refine ⟨hret, hid, ?_⟩
    rw [hid]
    rcases hex with ⟨rule, -, h⟩ | ⟨rule, -, h⟩ <;>
      (rw [← h]; exact UUID.String_ne_empty _)

/-- The runs of the amended C10 against the group "web": the ingress rule `id2`
stored with the type "INGRESS" exists and is found by the read; stored with the
type "ingress" it does not exist. -/
theorem existsSecurityGroupRule_lookup_witness :
    (existsSecurityGroupRule script.meta () ruleIngress).ret = (true, none) ∧
    (existsSecurityGroupRule script.meta () ruleIngressLower).ret = (false, none) ∧
    ((readSecurityGroupRule script.meta () ruleIngress).ret = .ok () ∧
      (readSecurityGroupRule script.meta () ruleIngress).d.Id = ruleIngress.Id ∧
      (readSecurityGroupRule script.meta () ruleIngress).d.Id ≠ "") :=
  ⟨(existsSecurityGroupRule_lookup script.meta () () ruleIngress webByName web rfl rfl).1.mpr
      (Or.inr ⟨rfl, rule2, by decide, by decide⟩),
    (existsSecurityGroupRule_lookup script.meta () () ruleIngressLower webByName web rfl
      rfl).2.1 (by decide),
    (existsSecurityGroupRule_lookup script.meta () () ruleIngress webByName web rfl rfl).2.2
      (by decide)⟩

set_option maxRecDepth 100000 in
/-- A character whose lower case is a letter of "egress" has the matching
capital as its upper case. -/
theorem unicode.lower_upper (c : Char) : ∀ p ∈ egressLetters,
    unicode.ToLower c = p.2 → unicode.ToUpper c = p.1 := by
  by_cases ha : c.toNat < 128
  · have hc : c = Char.ofNat c.toNat := (Char.ofNat_toNat c).symm
    generalize c.toNat = n at ha hc
    subst hc
    interval_cases n <;> decide
  · intro p hp h
    exfalso
    have hlo : c.toLower = c := by
      unfold Char.toLower
      simp only [ge_iff_le]
      rw [if_neg]
      omega
    have hp2 : p.2.toNat < 128 := by
      simp only [egressLetters, List.mem_cons, List.mem_singleton, List.not_mem_nil,
        or_false] at hp
      rcases hp with rfl | rfl | rfl | rfl <;> decide
    have hne : p.2 ≠ 'i' ∧ p.2 ≠ 'k' := by
      simp only [egressLetters, List.mem_cons, List.mem_singleton, List.not_mem_nil,
        or_false] at hp
      rcases hp with rfl | rfl | rfl | rfl <;> decide
    unfold unicode.ToLower at h
    split at h
    · exact hne.1 h.symm
    · split at h
      · exact hne.2 h.symm
      · rw [hlo] at h
        rw [h] at ha
        exact ha hp2

theorem map_lower_upper : ∀ (cs : List Char) (ps : List (Char × Char)),
    (∀ p ∈ ps, p ∈ egressLetters) →
    cs.map unicode.ToLower = ps.map Prod.snd → cs.map unicode.ToUpper = ps.map Prod.fst := by
  intro cs
  induction cs with
  | nil => intro ps _ h; cases ps <;> simp_all
  | cons c cs ih =>
    intro ps hps h
    cases ps with
    | nil => simp at h
    | cons p ps =>
      simp only [List.map_cons, List.cons.injEq] at h ⊢
      exact ⟨unicode.lower_upper c p (hps p (by simp)) h.1,
        ih ps (fun q hq => hps q (by simp [hq])) h.2⟩

/-- A text whose lower case is that of "EGRESS" has the upper case "EGRESS". -/
theorem ToLower_EGRESS_upper (s : String) (h : ToLower s = ToLower "EGRESS") :
    ToUpper s = "EGRESS" := by
  have e1 : ToLower "EGRESS" = "egress" := by decide
  rw [e1] at h
  unfold ToLower at h
  have hd := congrArg String.data h
  simp only at hd
  have h2 := map_lower_upper s.data
    [('E', 'e'), ('G', 'g'), ('R', 'r'), ('E', 'e'), ('S', 's'), ('S', 's')] (by decide) hd
  unfold ToUpper
  rw [h2]
  rfl

/-- A text whose lower case is that of "INGRESS" has seven characters, so its
upper case is not "EGRESS". -/
theorem ToLower_INGRESS_upper (s : String) (h : ToLower s = ToLower "INGRESS") :
    ToUpper s ≠ "EGRESS" := by
  have e1 : ToLower "INGRESS" = "ingress" := by decide
  rw [e1] at h
  unfold ToLower at h
  have hd := congrArg (fun t => t.data.length) h
  simp only [List.length_map] at hd
  intro hu
  unfold ToUpper at hu
  have hl := congrArg (fun t => t.data.length) hu
  simp only [List.length_map] at hl
  rw [hd] at hl
  revert hl
  decide

/-- On a type the validator of the schema accepts, the upper case is "EGRESS"
exactly when the validator's own comparison of lower cases with "EGRESS"
holds. -/
theorem securityGroupRuleResource.type_egress (v : String)
    (h : securityGroupRuleResource.type v = true) :
    ToUpper v = "EGRESS" ↔ ToLower v = ToLower "EGRESS" := by
  refine ⟨fun hu => ?_, ToLower_EGRESS_upper v⟩
  simp only [securityGroupRuleResource.type, validation.StringInSlice,
    validation.StringInSlice.scan, true_and] at h
  by_cases h1 : v = "INGRESS" ∨ ToLower v = ToLower "INGRESS"
  · exfalso
    rcases h1 with h1 | h1
    · rw [h1] at hu
      revert hu
      decide
    · exact ToLower_INGRESS_upper v h1 hu
  · rw [if_neg h1] at h
    by_cases h2 : v = "EGRESS" ∨ ToLower v = ToLower "EGRESS"
    · rcases h2 with h2 | h2
      · rw [h2]
      · exact h2
    · rw [if_neg h2] at h
      simp at h

/-! ## `createSecurityGroupRule`: the direction of the command -/

/-- Why the comparison of lower-case forms needs a type the validator accepts:
"egreſſ", written with the long s (U+017F), has the upper case "EGRESS" and a
lower case that is not that of "EGRESS"; the validator refuses it. -/
theorem ToUpper_long_s :
    ToUpper "egre\u017f\u017f" = "EGRESS" ∧
    ToLower "egre\u017f\u017f" ≠ ToLower "EGRESS" ∧
    securityGroupRuleResource.type "egre\u017f\u017f" = false := by
  decide

/-- Go `(uint16)(x)` and `(uint8)(x)` keep a value the schema accepts. -/
theorem conversions_preserve (v : Int) :
    (securityGroupRuleResource.port v = true → ((uint16 v : Nat) : Int) = v) ∧
    (securityGroupRuleResource.icmp v = true → ((uint8 v : Nat) : Int) = v) := by
  constructor
  · intro h
    simp only [securityGroupRuleResource.port, validation.IntBetween] at h
    split at h
    · simp at h
    · rename_i hr
      unfold uint16
      rw [Int.toNat_of_nonneg (Int.emod_nonneg _ (by norm_num))]
      exact Int.emod_eq_of_lt (by omega) (by omega)
  · intro h
    simp only [securityGroupRuleResource.icmp, validation.IntBetween] at h
    split at h
    · simp at h
    · rename_i hr
      unfold uint8
      rw [Int.toNat_of_nonneg (Int.emod_nonneg _ (by norm_num))]
      exact Int.emod_eq_of_lt (by omega) (by omega)

/-- The calls of lines 178-211: the calls made before, then the authorize
command, the egress variant when the upper-cased type is "EGRESS". -/
theorem createSecurityGroupRule.authorize_calls_eq {W : Type} (m : Meta W) (w : W)
    (d : RuleData) (securityGroup : SecurityGroup) (before : List Call)
    (cidrList : List CIDR) (groupList : List UserSecurityGroup) :
    (createSecurityGroupRule.authorize m w d securityGroup before cidrList groupList).calls =
      before ++ [.Request
        (if ToUpper d.type = "EGRESS" then
          .AuthorizeSecurityGroupEgress
            { SecurityGroupID := securityGroup.ID, CIDRList := cidrList,
              Description := d.description, Protocol := d.protocol,
              EndPort := uint16 d.end_port, StartPort := uint16 d.start_port,
              IcmpType := uint8 d.icmp_type, IcmpCode := uint8 d.icmp_code,
              UserSecurityGroupList := groupList }
        else
          .AuthorizeSecurityGroupIngress
            { SecurityGroupID := securityGroup.ID, CIDRList := cidrList,
              Description := d.description, Protocol := d.protocol,
              EndPort := uint16 d.end_port, StartPort := uint16 d.start_port,
              IcmpType := uint8 d.icmp_type, IcmpCode := uint8 d.icmp_code,
              UserSecurityGroupList := groupList })] := by
  unfold createSecurityGroupRule.authorize
  dsimp only
  by_cases h : ToUpper d.type = "EGRESS"
  · simp only [h, if_true]
    repeat' split
    all_goals rfl
  · simp only [h, if_false]
    repeat' split
    all_goals rfl

/-- The fields of the authorize commands among the calls of lines 178-211 do
not depend on the declared type. -/
theorem createSecurityGroupRule.authorize_fields {W : Type} (m : Meta W) (w : W)
    (d : RuleData) (securityGroup : SecurityGroup) (before : List Call)
    (cidrList : List CIDR) (groupList : List UserSecurityGroup) :
    (createSecurityGroupRule.authorize m w d securityGroup before cidrList
        groupList).calls.filterMap Call.authorize =
      before.filterMap Call.authorize ++
        [{ SecurityGroupID := securityGroup.ID, CIDRList := cidrList,
           Description := d.description, Protocol := d.protocol,
           EndPort := uint16 d.end_port, StartPort := uint16 d.start_port,
           IcmpType := uint8 d.icmp_type, IcmpCode := uint8 d.icmp_code,
           UserSecurityGroupList := groupList }] := by
  rw [createSecurityGroupRule.authorize_calls_eq]
  by_cases h : ToUpper d.type = "EGRESS"
  · simp [h, List.filterMap_append, Call.authorize]
  · simp [h, List.filterMap_append, Call.authorize]

/-- What an authorize call of `createSecurityGroupRule` looks like. -/
theorem createSecurityGroupRule.authorize_shape (d : RuleData)
    (fields cmd : AuthorizeSecurityGroupIngress) (call : Call)
    (hd : fields.Description = d.description) (hp : fields.Protocol = d.protocol)
    (he : fields.EndPort = uint16 d.end_port) (hs : fields.StartPort = uint16 d.start_port)
    (ht : fields.IcmpType = uint8 d.icmp_type) (hc : fields.IcmpCode = uint8 d.icmp_code)
    (hcall : call = .Request (if ToUpper d.type = "EGRESS" then
      .AuthorizeSecurityGroupEgress fields else .AuthorizeSecurityGroupIngress fields))
    (hcmd : call.authorize = some cmd) :
    (call = .Request (.AuthorizeSecurityGroupEgress cmd) ↔
      ToUpper d.type = ToUpper "EGRESS") ∧
    (call = .Request (.AuthorizeSecurityGroupIngress cmd) ↔
      ToUpper d.type ≠ ToUpper "EGRESS") ∧
    (securityGroupRuleResource.type d.type = true →
      (call = .Request (.AuthorizeSecurityGroupEgress cmd) ↔
        ToLower d.type = ToLower "EGRESS") ∧
      (call = .Request (.AuthorizeSecurityGroupIngress cmd) ↔
        ToLower d.type ≠ ToLower "EGRESS")) ∧
    cmd.Description = d.description ∧ cmd.Protocol = d.protocol ∧
    cmd.StartPort = uint16 d.start_port ∧ cmd.EndPort = uint16 d.end_port ∧
    cmd.IcmpType = uint8 d.icmp_type ∧ cmd.IcmpCode = uint8 d.icmp_code := by
  have hu : ToUpper "EGRESS" = "EGRESS" := by decide
  have hboth : (call = .Request (.AuthorizeSecurityGroupEgress cmd) ↔
        ToUpper d.type = "EGRESS") ∧
      (call = .Request (.AuthorizeSecurityGroupIngress cmd) ↔ ToUpper d.type ≠ "EGRESS") ∧
      cmd.Description = d.description ∧ cmd.Protocol = d.protocol ∧
      cmd.StartPort = uint16 d.start_port ∧ cmd.EndPort = uint16 d.end_port ∧
      cmd.IcmpType = uint8 d.icmp_type ∧ cmd.IcmpCode = uint8 d.icmp_code := by
    by_cases h : ToUpper d.type = "EGRESS"
    · rw [if_pos h] at hcall
      rw [hcall] at hcmd
      simp only [Call.authorize, Option.some.injEq] at hcmd
      subst hcmd
      simp [hcall, h, hd, hp, he, hs, ht, hc]
    · rw [if_neg h] at hcall
      rw [hcall] at hcmd
      simp only [Call.authorize, Option.some.injEq] at hcmd
      subst hcmd
      simp [hcall, h, hd, hp, he, hs, ht, hc]
  obtain ⟨h1, h2, h3⟩ := hboth
  rw [hu]
  refine ⟨h1, h2, fun hv => ?_, h3⟩
  have hl := securityGroupRuleResource.type_egress d.type hv
  exact ⟨h1.trans hl, h2.trans (not_congr hl)⟩

/-- C11. In `createSecurityGroupRule`, every authorize command issued is the
egress variant exactly when the declared type equals "EGRESS" ignoring letter
case, and the ingress variant otherwise. Ignoring letter case is what the
operation does, the comparison of upper-case forms, for every declared type;
for every type the validator of the schema accepts it is also the validator's
own comparison of lower-case forms. The command carries the declared
description and protocol and the converted ports and ICMP values, and with
ports in 0..65535 and ICMP values in 0..255 (what the schema accepts) the
conversions keep the declared values; the fields of the command (security
group id, CIDR list, description, protocol, ports, ICMP type and code, user
security group list) are the same whatever the declared type is. -/
theorem createSecurityGroupRule_direction {W : Type} (m : Meta W) (w : W) (d : RuleData) :
    (∀ call ∈ (createSecurityGroupRule m w d).calls, ∀ cmd, call.authorize = some cmd →
      (call = .Request (.AuthorizeSecurityGroupEgress cmd) ↔
        ToUpper d.type = ToUpper "EGRESS") ∧
      (call = .Request (.AuthorizeSecurityGroupIngress cmd) ↔
        ToUpper d.type ≠ ToUpper "EGRESS") ∧
      (securityGroupRuleResource.type d.type = true →
        (call = .Request (.AuthorizeSecurityGroupEgress cmd) ↔
          ToLower d.type = ToLower "EGRESS") ∧
        (call = .Request (.AuthorizeSecurityGroupIngress cmd) ↔
          ToLower d.type ≠ ToLower "EGRESS")) ∧
      cmd.Description = d.description ∧ cmd.Protocol = d.protocol ∧
      cmd.StartPort = uint16 d.start_port ∧ cmd.EndPort = uint16 d.end_port ∧
      cmd.IcmpType = uint8 d.icmp_type ∧ cmd.IcmpCode = uint8 d.icmp_code ∧
      (securityGroupRuleResource.port d.start_port = true →
        (cmd.StartPort : Int) = d.start_port) ∧
      (securityGroupRuleResource.port d.end_port = true → (cmd.EndPort : Int) = d.end_port) ∧
      (securityGroupRuleResource.icmp d.icmp_type = true →
        (cmd.IcmpType : Int) = d.icmp_type) ∧
      (securityGroupRuleResource.icmp d.icmp_code = true →
        (cmd.IcmpCode : Int) = d.icmp_code)) ∧
    (∀ t : String,
      (createSecurityGroupRule m w { d with type := t }).calls.filterMap Call.authorize =
        (createSecurityGroupRule m w d).calls.filterMap Call.authorize) := by
  constructor
  · intro call hcall cmd hcmd
    have hshape : (call = .Request (.AuthorizeSecurityGroupEgress cmd) ↔
          ToUpper d.type = ToUpper "EGRESS") ∧
        (call = .Request (.AuthorizeSecurityGroupIngress cmd) ↔
          ToUpper d.type ≠ ToUpper "EGRESS") ∧
        (securityGroupRuleResource.type d.type = true →
          (call = .Request (.AuthorizeSecurityGroupEgress cmd) ↔
            ToLower d.type = ToLower "EGRESS") ∧
          (call = .Request (.AuthorizeSecurityGroupIngress cmd) ↔
            ToLower d.type ≠ ToLower "EGRESS")) ∧
        cmd.Description = d.description ∧ cmd.Protocol = d.protocol ∧
        cmd.StartPort = uint16 d.start_port ∧ cmd.EndPort = uint16 d.end_port ∧
        cmd.IcmpType = uint8 d.icmp_type ∧ cmd.IcmpCode = uint8 d.icmp_code := by
      unfold createSecurityGroupRule at hcall
      dsimp only at hcall
      repeat' split at hcall
      all_goals first
        | (simp only [List.mem_cons, List.mem_singleton, List.not_mem_nil, or_false] at hcall
           rcases hcall with h | h <;> (rw [h] at hcmd; simp [Call.authorize] at hcmd))
        | (simp only [List.mem_singleton, List.not_mem_nil] at hcall
           rw [hcall] at hcmd; simp [Call.authorize] at hcmd)
        | (simp only [List.not_mem_nil] at hcall)
        | (rw [createSecurityGroupRule.authorize_calls_eq] at hcall
           simp only [List.mem_append, List.mem_cons, List.mem_singleton, List.not_mem_nil,
             or_false] at hcall
           rcases hcall with (h | h) | h
           · rw [h] at hcmd; simp [Call.authorize] at hcmd
           · rw [h] at hcmd; simp [Call.authorize] at hcmd
           · exact createSecurityGroupRule.authorize_shape d _ cmd call rfl rfl rfl rfl rfl rfl
               h hcmd)
        | (rw [createSecurityGroupRule.authorize_calls_eq] at hcall
           simp only [List.mem_append, List.mem_cons, List.mem_singleton, List.not_mem_nil,
             or_false] at hcall
           rcases hcall with h | h
           · rw [h] at hcmd; simp [Call.authorize] at hcmd
           · exact createSecurityGroupRule.authorize_shape d _ cmd call rfl rfl rfl rfl rfl rfl
               h hcmd)
    obtain ⟨h1, h2, hv, h3, h4, h5, h6, h7, h8⟩ := hshape
    refine ⟨h1, h2, hv, h3, h4, h5, h6, h7, h8, ?_, ?_, ?_, ?_⟩
    · intro hv; rw [h5]; exact (conversions_preserve _).1 hv
    · intro hv; rw [h6]; exact (conversions_preserve _).1 hv
    · intro hv; rw [h7]; exact (conversions_preserve _).2 hv
    · intro hv; rw [h8]; exact (conversions_preserve _).2 hv
  · intro t
    unfold createSecurityGroupRule
    dsimp only
    repeat' split
    all_goals simp_all [createSecurityGroupRule.authorize_fields]

/-- The runs of C11 on a record with a CIDR: declared "INGRESS" it leads to the
ingress variant, declared "egress" to the egress variant, with the same fields
and the declared ports. -/
theorem createSecurityGroupRule_direction_witness :
    (Call.Request (.AuthorizeSecurityGroupIngress authorizeBoth) ∈
        (createSecurityGroupRule script.meta () ruleBoth).calls ∧
      Call.Request (.AuthorizeSecurityGroupEgress authorizeBoth) ∈
        (createSecurityGroupRule script.meta () ruleBothEgress).calls) ∧
    ToUpper ruleBothEgress.type = ToUpper "EGRESS" ∧
    (securityGroupRuleResource.type ruleBothEgress.type = true ∧
      ToLower ruleBothEgress.type = ToLower "EGRESS") ∧
    (authorizeBoth.Description = ruleBothEgress.description ∧
      authorizeBoth.Protocol = ruleBothEgress.protocol) ∧
    ((authorizeBoth.StartPort : Int) = ruleBothEgress.start_port ∧
      (authorizeBoth.EndPort : Int) = ruleBothEgress.end_port ∧
      (authorizeBoth.IcmpType : Int) = ruleBothEgress.icmp_type ∧
      (authorizeBoth.IcmpCode : Int) = ruleBothEgress.icmp_code) ∧
    (createSecurityGroupRule script.meta () { ruleBoth with type := "egress" }).calls.filterMap
        Call.authorize =
      (createSecurityGroupRule script.meta () ruleBoth).calls.filterMap Call.authorize := by
  obtain ⟨h1, -, hv, h3, h4, -, -, -, -, h9, h10, h11, h12⟩ :=
    (createSecurityGroupRule_direction script.meta () ruleBothEgress).1
      (Call.Request (.AuthorizeSecurityGroupEgress authorizeBoth)) (by decide)
      authorizeBoth rfl
  exact ⟨⟨by decide, by decide⟩, h1.mp rfl, ⟨by decide, (hv (by decide)).1.mp rfl⟩,
    ⟨h3, h4⟩,
    ⟨h9 (by decide), h10 (by decide), h11 (by decide), h12 (by decide)⟩,
    (createSecurityGroupRule_direction script.meta () ruleBoth).2 "egress"⟩

/-! ## `readSecurityGroupRule`: reading twice -/

theorem UUID.wellFormed_toLower : ∀ (cs : List Char) (i : Nat),
    UUID.wellFormed i cs = true → cs.map Char.toLower = cs := by
  intro cs
  induction cs with
  | nil => intro i _; rfl
  | cons c cs ih =>
    intro i h
    unfold UUID.wellFormed at h
    simp only [Bool.and_eq_true] at h
    obtain ⟨hc, hrest⟩ := h
    have hlow : c.toLower = c := by
      unfold Char.toLower
      simp only [ge_iff_le]
      rw [if_neg]
      intro hup
      split at hc
      · have : c = '-' := by simpa using hc
        subst this
        revert hup
        decide
      · simp only [isLowerHex, Bool.or_eq_true, Bool.and_eq_true, decide_eq_true_eq] at hc
        omega
    rw [List.map_cons, hlow, ih _ hrest]

/-- A canonical text has 36 characters. -/
theorem UUID.wellFormed_length : ∀ (cs : List Char) (i : Nat),
    UUID.wellFormed i cs = true → i + cs.length = 36 := by
  intro cs
  induction cs with
  | nil =>
    intro i h
    unfold UUID.wellFormed at h
    simpa using h
  | cons c cs ih =>
    intro i h
    unfold UUID.wellFormed at h
    simp only [Bool.and_eq_true] at h
    have := ih _ h.2
    simp only [List.length_cons]
    omega

/-- The text of an identifier parses back to the identifier. -/
theorem ParseUUID_String (u : UUID) : ParseUUID u.String = .ok u := by
  have hmap := UUID.wellFormed_toLower u.text.data 0 u.canonical
  have hlen : u.text.data.length = 36 := by
    have := UUID.wellFormed_length u.text.data 0 u.canonical
    omega
  have hread : UUID.UnmarshalText u.text.data = some u.text.data := by
    simp [UUID.UnmarshalText, UUID.decodePlain, hlen]
  unfold ParseUUID UUID.String
  rw [hread]
  dsimp only
  have htext : String.mk (u.text.data.map Char.toLower) = u.text := by rw [hmap]
  rw [dif_pos (by rw [hmap]; exact u.canonical)]
  congr 1
  cases u
  simp only [UUID.mk.injEq]
  exact htext

theorem resolvedRule_id (sg : SecurityGroup) (id t : String) (rule : EgressRule)
    (h : resolvedRule sg id = some (t, rule)) : rule.RuleID.String = id := by
  unfold resolvedRule at h
  split at h
  · rename_i r hf
    simp only [Option.some.injEq, Prod.mk.injEq] at h
    have := List.find?_some hf
    rw [← h.2]
    simpa using this
  · split at h
    · rename_i r hf
      simp only [Option.some.injEq, Prod.mk.injEq] at h
      have := List.find?_some hf
      rw [← h.2]
      simpa using this
    · simp at h

theorem resolvedRule_empty (sg : SecurityGroup) : resolvedRule sg "" = none := by
  have hnone : ∀ rules : List EgressRule,
      rules.find? (fun rule => decide (rule.RuleID.String = "")) = none := by
    intro rules
    rw [List.find?_eq_none]
    intro rule _
    simpa using UUID.String_ne_empty rule.RuleID
  unfold resolvedRule
  rw [hnone, hnone]

/-- What `readSecurityGroupRule` does once the parent group is fetched: it
applies the resolved rule with the name of its list as the type, or clears the
identifier. -/
theorem readSecurityGroupRule_fetched {W : Type} (m : Meta W) (w w1 : W) (d : RuleData)
    (q sg : SecurityGroup) (href : securityGroupOf d = .ok q)
    (hget : m.client.GetWithContext w q = (.ok sg, w1)) :
    readSecurityGroupRule m w d =
      ⟨.ok (),
        match resolvedRule sg d.Id with
        | some (t, rule) => (applySecurityGroupRule { d with type := t } sg rule).1
        | none => { d with Id := "" },
        w1, [.Get q]⟩ := by
  unfold readSecurityGroupRule resolvedRule
  simp only [href, hget, readSecurityGroupRule.scan_eq_find]
  cases he : sg.EgressRule.find? (fun rule => decide (rule.RuleID.String = d.Id)) with
  | some rule =>
    simp [(applySecurityGroupRule_id_type { d with type := "EGRESS" } sg rule).1,
      Outcome.ofError]
  | none =>
    cases hi : sg.IngressRule.find? (fun rule => decide (rule.RuleID.String = d.Id)) with
    | some rule =>
      simp [(applySecurityGroupRule_id_type { d with type := "INGRESS" } sg rule).1,
        Outcome.ofError]
    | none => simp

/-- What `readSecurityGroupRule` does when fetching the parent group fails. -/
theorem readSecurityGroupRule_failed {W : Type} (m : Meta W) (w w1 : W) (d : RuleData)
    (q : SecurityGroup) (err : Error) (href : securityGroupOf d = .ok q)
    (hget : m.client.GetWithContext w q = (.error err, w1)) :
    readSecurityGroupRule m w d =
      ⟨Outcome.ofError (handleNotFound d err).2, (handleNotFound d err).1, w1, [.Get q]⟩ := by
  unfold readSecurityGroupRule
  simp only [href, hget]

theorem securityGroupOf_handleNotFound (d : RuleData) (err : Error) :
    securityGroupOf (handleNotFound d err).1 = securityGroupOf d ∧
    handleNotFound (handleNotFound d err).1 err = handleNotFound d err := by
  cases err with
  | parse kind text => exact ⟨rfl, rfl⟩
  | errorf msg => exact ⟨rfl, rfl⟩
  | response notFound msg => cases notFound <;> exact ⟨rfl, rfl⟩

/-- The reference to the parent group that a record carries after a rule was
applied to it: by identifier when the fetched group has one. -/
theorem securityGroupOf_applied (d : RuleData) (sg : SecurityGroup) (rule : EgressRule) :
    securityGroupOf (applySecurityGroupRule d sg rule).1 =
      .ok (match sg.ID with
        | some gid => { SecurityGroup.zero with ID := some gid, Name := "" }
        | none => { SecurityGroup.zero with ID := none, Name := sg.Name }) := by
  unfold applySecurityGroupRule securityGroupOf
  cases hid : sg.ID with
  | none => cases rule.CIDR <;> simp
  | some gid => cases rule.CIDR <;> simp [ParseUUID_String]

/-- Applying the same rule of the same group a second time changes nothing. -/
theorem applySecurityGroupRule_again (d : RuleData) (sg : SecurityGroup) (rule : EgressRule)
    (t : String) :
    (applySecurityGroupRule
        { (applySecurityGroupRule { d with type := t } sg rule).1 with type := t } sg rule).1 =
      (applySecurityGroupRule { d with type := t } sg rule).1 := by
  unfold applySecurityGroupRule
  cases rule.CIDR <;> rfl

/-- C12. Resolving a rule by identifier is idempotent: when the remote state is
unchanged (the lookup of the parent group made by the second run, by
identifier or by name, answers what the lookup of the first run answered),
running `readSecurityGroupRule` twice leaves the local record (every key of
it) equal to the record after running it once and returns the same value, and
both runs resolve to the same remote rule of the fetched group. -/
theorem readSecurityGroupRule_idempotent {W : Type} (m : Meta W) (w : W) (d : RuleData)
    (hsame : ∀ q0 q1, securityGroupOf d = .ok q0 →
      securityGroupOf (readSecurityGroupRule m w d).d = .ok q1 →
      (m.client.GetWithContext (readSecurityGroupRule m w d).w q1).1 =
        (m.client.GetWithContext w q0).1) :
    (readSecurityGroupRule m (readSecurityGroupRule m w d).w
        (readSecurityGroupRule m w d).d).d = (readSecurityGroupRule m w d).d ∧
    (readSecurityGroupRule m (readSecurityGroupRule m w d).w
        (readSecurityGroupRule m w d).d).ret = (readSecurityGroupRule m w d).ret ∧
    ∀ q0 sg w1, securityGroupOf d = .ok q0 →
      m.client.GetWithContext w q0 = (.ok sg, w1) →
      resolvedRule sg (readSecurityGroupRule m w d).d.Id = resolvedRule sg d.Id := by
  cases href : securityGroupOf d with
  | error e =>
    have h1 : readSecurityGroupRule m w d = ⟨.error e, d, w, []⟩ := by
      unfold readSecurityGroupRule
      simp only [href]
    rw [h1]
    dsimp only
    rw [h1]
    exact ⟨rfl, rfl, fun q0 sg w1 hq _ => by cases hq⟩
  | ok q0 =>
    rcases hG : m.client.GetWithContext w q0 with ⟨res, w1⟩
    cases res with
    | error err =>
      have h1 := readSecurityGroupRule_failed m w w1 d q0 err href hG
      obtain ⟨hr, hh⟩ := securityGroupOf_handleNotFound d err
      have href1 : securityGroupOf (handleNotFound d err).1 = .ok q0 := by rw [hr, href]
      have hs := hsame q0 q0 href (by rw [h1]; exact href1)
      rw [hG, h1] at hs
      dsimp only at hs
      rcases hG2 : m.client.GetWithContext w1 q0 with ⟨res2, w2⟩
      rw [hG2] at hs
      dsimp only at hs
      subst hs
      have h2 := readSecurityGroupRule_failed m w1 w2 (handleNotFound d err).1 q0 err href1 hG2
      rw [h1]
      dsimp only
      rw [h2, hh]
      refine ⟨rfl, rfl, ?_⟩
      intro q sg w' hq hg
      cases hq
      rw [hG] at hg
      cases hg
    | ok sg =>
      have h1 := readSecurityGroupRule_fetched m w w1 d q0 sg href hG
      cases hres : resolvedRule sg d.Id with
      | none =>
        rw [hres] at h1
        dsimp only at h1
        have href1 : securityGroupOf { d with Id := "" } = .ok q0 := href
        have hs := hsame q0 q0 href (by rw [h1]; exact href1)
        rw [hG, h1] at hs
        dsimp only at hs
        rcases hG2 : m.client.GetWithContext w1 q0 with ⟨res2, w2⟩
        rw [hG2] at hs
        dsimp only at hs
        subst hs
        have h2 := readSecurityGroupRule_fetched m w1 w2 { d with Id := "" } q0 sg href1 hG2
        have hempty : resolvedRule sg ({ d with Id := "" } : RuleData).Id = none :=
          resolvedRule_empty sg
        rw [hempty] at h2
        dsimp only at h2
        rw [h1]
        dsimp only
        rw [h2]
        refine ⟨rfl, rfl, ?_⟩
        intro q sg' w' hq hg
        cases hq
        rw [hG] at hg
        cases hg
        rw [resolvedRule_empty, hres]
      | some tr =>
        obtain ⟨t, rule⟩ := tr
        rw [hres] at h1
        dsimp only at h1
        have hid : (applySecurityGroupRule { d with type := t } sg rule).1.Id = d.Id := by
          rw [(applySecurityGroupRule_id_type _ _ _).2.1]
          exact resolvedRule_id sg d.Id t rule hres
        have href1 := securityGroupOf_applied { d with type := t } sg rule
        have hs := hsame q0 _ href (by rw [h1]; exact href1)
        rw [hG, h1] at hs
        dsimp only at hs
        rcases hG2 : m.client.GetWithContext w1
            (match sg.ID with
              | some gid => { SecurityGroup.zero with ID := some gid, Name := "" }
              | none => { SecurityGroup.zero with ID := none, Name := sg.Name })
          with ⟨res2, w2⟩
        rw [hG2] at hs
        dsimp only at hs
        subst hs
        have h2 := readSecurityGroupRule_fetched m w1 w2
          (applySecurityGroupRule { d with type := t } sg rule).1 _ sg href1 hG2
        rw [hid, hres] at h2
        dsimp only at h2
        rw [h1]
        dsimp only
        rw [h2]
        refine ⟨applySecurityGroupRule_again d sg rule t, rfl, ?_⟩
        intro q sg' w' hq hg
        cases hq
        rw [hG] at hg
        cases hg
        rw [hid]

/-- The two runs of C12 on the ingress rule `id2` of the group "web", against a
remote side that answers every lookup of the group alike: the first run looks
the group up by name, the second by the identifier the first one stored. -/
theorem readSecurityGroupRule_idempotent_witness :
    (readSecurityGroupRule script.meta (readSecurityGroupRule script.meta () ruleIngress).w
        (readSecurityGroupRule script.meta () ruleIngress).d).d =
      (readSecurityGroupRule script.meta () ruleIngress).d ∧
    (readSecurityGroupRule script.meta (readSecurityGroupRule script.meta () ruleIngress).w
        (readSecurityGroupRule script.meta () ruleIngress).d).ret =
      (readSecurityGroupRule script.meta () ruleIngress).ret ∧
    resolvedRule web (readSecurityGroupRule script.meta () ruleIngress).d.Id =
      resolvedRule web ruleIngress.Id ∧
    resolvedRule web ruleIngress.Id = some ("INGRESS", rule2) ∧
    securityGroupOf (readSecurityGroupRule script.meta () ruleIngress).d =
      .ok { SecurityGroup.zero with ID := some idNet } :=
  ⟨(readSecurityGroupRule_idempotent script.meta () ruleIngress (fun _ _ _ _ => rfl)).1,
    (readSecurityGroupRule_idempotent script.meta () ruleIngress (fun _ _ _ _ => rfl)).2.1,
    (readSecurityGroupRule_idempotent script.meta () ruleIngress (fun _ _ _ _ => rfl)).2.2
      webByName web () rfl rfl,
    by decide, by decide⟩

/-! ## `createNic` -/

theorem NicByNetworkID_scan_eq_find (networkID : UUID) (nics : List Nic) :
    NicByNetworkID.scan networkID nics =
      nics.find? (fun nic => decide (nic.NetworkID = networkID)) := by
  induction nics with
  | nil => rfl
  | cons nic rest ih =>
    unfold NicByNetworkID.scan
    by_cases h : nic.NetworkID = networkID
    · simp [h]
    · simp [h, ih]

/-- C13. In `createNic`, for every machine object the `AddNicToVirtualMachine`
command returns: if it contains no NIC whose network identifier equals the
declared `network_id`, the operation returns an error and the local identifier
is not set (the record is left as it was); if it contains one, the local
identifier is set to the identifier of the first such NIC and `readNic` then
runs on that record. -/
theorem createNic_attachment {W : Type} (m : Meta W) (w w1 : W) (d : NicData)
    (networkID vmID : UUID) (vm : VirtualMachine)
    (hnet : ParseUUID d.network_id = .ok networkID)
    (hvm : ParseUUID d.compute_id = .ok vmID)
    (hresp : m.client.RequestWithContext w (.AddNicToVirtualMachine networkID vmID
        (if d.ip_address ≠ "" then (ParseIP d.ip_address).getD [] else [])) = (.ok vm, w1)) :
    ((∀ nic ∈ vm.Nic, nic.NetworkID ≠ networkID) →
      (∃ err, (createNic m w d).ret = .error err) ∧ (createNic m w d).d = d ∧
      (createNic m w d).d.Id = d.Id) ∧
    (∀ nic, vm.Nic.find? (fun n => decide (n.NetworkID = networkID)) = some nic →
      createNic m w d =
        (readNic m w1 { d with Id := nic.ID.String }).after
          [.Request (.AddNicToVirtualMachine networkID vmID
            (if d.ip_address ≠ "" then (ParseIP d.ip_address).getD [] else []))]) := by
  constructor
  · intro hall
    have hnone := (NicByNetworkID_scan_eq_none networkID vm.Nic).mpr hall
    unfold createNic
    simp [hnet, hvm, hresp, VirtualMachine.NicByNetworkID, hnone]
  · intro nic hfind
    rw [← NicByNetworkID_scan_eq_find] at hfind
    unfold createNic
    simp only [hnet, hvm, hresp, VirtualMachine.NicByNetworkID, hfind]

/-- The runs of C13 on the NIC record of machine `id1` and network `id2`: the
machine comes back without any NIC, or with the NIC `id3` on that network. -/
theorem createNic_attachment_witness :
    ((∃ err, (createNic scriptNoNic.meta () nicKnown).ret = .error err) ∧
      (createNic scriptNoNic.meta () nicKnown).d = nicKnown ∧
      (createNic scriptNoNic.meta () nicKnown).d.Id = nicKnown.Id) ∧
    createNic script.meta () nicFresh =
      (readNic script.meta () { nicFresh with Id := nic9.ID.String }).after
        [.Request (.AddNicToVirtualMachine id2 id1
          (if nicFresh.ip_address ≠ "" then (ParseIP nicFresh.ip_address).getD [] else []))] :=
  ⟨(createNic_attachment scriptNoNic.meta () () nicKnown id2 id1 ⟨id1, []⟩ (by decide)
      (by decide) rfl).1 (by decide),
    (createNic_attachment script.meta () () nicFresh id2 id1 ⟨id1, [nic9]⟩ (by decide)
      (by decide) rfl).2 nic9 (by decide)⟩

/-! ## Zero results: `Read` against `Exists` -/

/-- C14. In `readNetwork` and `readNic`, a lookup that succeeds but returns
zero results makes the read return an error and leaves the local identifier
unchanged, whereas the same lookup in `existsNetwork` and `existsNic` returns
`(false, nil)` and clears the local identifier. -/
theorem read_zero_results {W : Type} (m : Meta W) (w w1 : W) :
    (∀ (d : NetworkData) (id : UUID) (networks : ListNetworksResponse),
      ParseUUID d.Id = .ok id →
      m.client.RequestWithContext w (.ListNetworks id) = (.ok networks, w1) →
      networks.Count = 0 →
      ((∃ err, (readNetwork m w d).ret = .error err) ∧ (readNetwork m w d).d.Id = d.Id) ∧
      ((existsNetwork m w d).ret = (false, none) ∧ (existsNetwork m w d).d.Id = "")) ∧
    (∀ (d : NicData) (id vmID : UUID) (nics : ListNicsResponse),
      ParseUUID d.Id = .ok id → ParseUUID d.compute_id = .ok vmID →
      m.client.RequestWithContext w (.ListNics id vmID) = (.ok nics, w1) →
      nics.Count = 0 →
      ((∃ err, (readNic m w d).ret = .error err) ∧ (readNic m w d).d.Id = d.Id) ∧
      ((existsNic m w d).ret = (false, none) ∧ (existsNic m w d).d.Id = "")) := by
  constructor
  · intro d id networks hid hreq hcount
    constructor
    · simp [readNetwork, hid, hreq, hcount]
    · simp [existsNetwork, hid, hreq, hcount]
  · intro d id vmID nics hid hvm hreq hcount
    constructor
    · simp [readNic, hid, hvm, hreq, hcount]
    · simp [existsNic, hid, hvm, hreq, hcount]

/-- The runs of C14 on a known network and a known NIC against a remote side
whose lists come back empty. -/
theorem read_zero_results_witness :
    (((∃ err, (readNetwork scriptEmpty.meta () networkKnown).ret = .error err) ∧
        (readNetwork scriptEmpty.meta () networkKnown).d.Id = networkKnown.Id) ∧
      ((existsNetwork scriptEmpty.meta () networkKnown).ret = (false, none) ∧
        (existsNetwork scriptEmpty.meta () networkKnown).d.Id = "")) ∧
    (((∃ err, (readNic scriptEmpty.meta () nicKnown).ret = .error err) ∧
        (readNic scriptEmpty.meta () nicKnown).d.Id = nicKnown.Id) ∧
      ((existsNic scriptEmpty.meta () nicKnown).ret = (false, none) ∧
        (existsNic scriptEmpty.meta () nicKnown).d.Id = "")) :=
  ⟨(read_zero_results scriptEmpty.meta () ()).1 networkKnown idNet ⟨0, []⟩ (by decide) rfl rfl,
    (read_zero_results scriptEmpty.meta () ()).2 nicKnown id3 id1 ⟨0, []⟩ (by decide)
      (by decide) rfl rfl⟩

/-! ## The stored type of a rule -/

/-- A successful run of lines 178-211 stores the upper-cased type and the
identifier of the first rule of the list of the response that the type names. -/
theorem createSecurityGroupRule.authorize_stored {W : Type} (m : Meta W) (w : W)
    (d : RuleData) (securityGroup : SecurityGroup) (before : List Call)
    (cidrList : List CIDR) (groupList : List UserSecurityGroup)
    (hret : (createSecurityGroupRule.authorize m w d securityGroup before cidrList
      groupList).ret = .ok ()) :
    (ToUpper d.type = "EGRESS" ∧
      (createSecurityGroupRule.authorize m w d securityGroup before cidrList
        groupList).d.type = "EGRESS" ∧
      ∃ fields sg w1 rule rest,
        Call.Request (.AuthorizeSecurityGroupEgress fields) ∈
          (createSecurityGroupRule.authorize m w d securityGroup before cidrList
            groupList).calls ∧
        m.client.RequestWithContext w (.AuthorizeSecurityGroupEgress fields) = (.ok sg, w1) ∧
        sg.EgressRule = rule :: rest ∧
        (createSecurityGroupRule.authorize m w d securityGroup before cidrList
          groupList).d.Id = rule.RuleID.String) ∨
    (ToUpper d.type ≠ "EGRESS" ∧
      (createSecurityGroupRule.authorize m w d securityGroup before cidrList
        groupList).d.type = ToUpper d.type ∧
      ∃ fields sg w1 rule rest,
        Call.Request (.AuthorizeSecurityGroupIngress fields) ∈
          (createSecurityGroupRule.authorize m w d securityGroup before cidrList
            groupList).calls ∧
        m.client.RequestWithContext w (.AuthorizeSecurityGroupIngress fields) = (.ok sg, w1) ∧
        sg.IngressRule = rule :: rest ∧
        (createSecurityGroupRule.authorize m w d securityGroup before cidrList
          groupList).d.Id = rule.RuleID.String) := by
  unfold createSecurityGroupRule.authorize at hret ⊢
  dsimp only at hret ⊢
  by_cases h : ToUpper d.type = "EGRESS"
  · left
    simp only [h, if_true] at hret ⊢
    split at hret
    · simp at hret
    · rename_i sg w1 hreq
      split at hret
      · simp at hret
      · rename_i rule rest hl
        simp only [hreq, hl]
        have hap := applySecurityGroupRule_id_type { d with type := "EGRESS" } securityGroup
          rule
        exact ⟨trivial, hap.2.2, _, sg, w1, rule, rest, by simp, hreq, hl, hap.2.1⟩
  · right
    simp only [h, if_false] at hret ⊢
    split at hret
    · simp at hret
    · rename_i sg w1 hreq
      split at hret
      · simp at hret
      · rename_i rule rest hl
        simp only [hreq, hl]
        have hap := applySecurityGroupRule_id_type { d with type := ToUpper d.type }
          securityGroup rule
        exact ⟨h, hap.2.2, _, sg, w1, rule, rest, by simp, hreq, hl, hap.2.1⟩

/-- Every run of `createSecurityGroupRule` either is a run of lines 178-211 or
returns an error. -/
theorem createSecurityGroupRule.reaches {W : Type} (m : Meta W) (w : W) (d : RuleData) :
    (∃ w0 securityGroup before cidrList groupList,
      createSecurityGroupRule m w d =
        createSecurityGroupRule.authorize m w0 d securityGroup before cidrList groupList) ∨
    ∃ err, (createSecurityGroupRule m w d).ret = .error err := by
  unfold createSecurityGroupRule
  dsimp only
  repeat' split
  all_goals first
    | exact Or.inr ⟨_, rfl⟩
    | exact Or.inl ⟨_, _, _, _, _, rfl⟩

theorem resolvedRule_mem (sg : SecurityGroup) (id t : String) (rule : EgressRule)
    (h : resolvedRule sg id = some (t, rule)) :
    (t = "EGRESS" ∧ rule ∈ sg.EgressRule) ∨ (t = "INGRESS" ∧ rule ∈ sg.IngressRule) := by
  unfold resolvedRule at h
  split at h
  · rename_i r hf
    simp only [Option.some.injEq, Prod.mk.injEq] at h
    left
    rw [← h.1, ← h.2]
    exact ⟨rfl, List.mem_of_find?_eq_some hf⟩
  · split at h
    · rename_i r hf
      simp only [Option.some.injEq, Prod.mk.injEq] at h
      right
      rw [← h.1, ← h.2]
      exact ⟨rfl, List.mem_of_find?_eq_some hf⟩
    · simp at h

/-- Where the stored type is one of the two words: after every successful
`createSecurityGroupRule` on a declared type whose upper case is "INGRESS" or
"EGRESS", after every `readSecurityGroupRule` that finds the rule, and for
every rule record `importSecurityGroup` produces, the stored type is exactly
"EGRESS" or exactly "INGRESS" and names the list the rule was taken from. On a
record whose type is one of the two, `existsSecurityGroupRule` looks the
identifier up in the list the type names and `deleteSecurityGroupRule` issues
the revoke command of that direction. -/
theorem stored_type_of_upper_case {W : Type} (m : Meta W) (w : W) :
    (∀ d : RuleData, ToUpper d.type = "INGRESS" ∨ ToUpper d.type = "EGRESS" →
      (createSecurityGroupRule m w d).ret = .ok () →
      ((createSecurityGroupRule m w d).d.type = "EGRESS" ∧
        ∃ w0 fields sg w1 rule rest,
          Call.Request (.AuthorizeSecurityGroupEgress fields) ∈
            (createSecurityGroupRule m w d).calls ∧
          m.client.RequestWithContext w0 (.AuthorizeSecurityGroupEgress fields) =
            (.ok sg, w1) ∧
          sg.EgressRule = rule :: rest ∧
          (createSecurityGroupRule m w d).d.Id = rule.RuleID.String) ∨
      ((createSecurityGroupRule m w d).d.type = "INGRESS" ∧
        ∃ w0 fields sg w1 rule rest,
          Call.Request (.AuthorizeSecurityGroupIngress fields) ∈
            (createSecurityGroupRule m w d).calls ∧
          m.client.RequestWithContext w0 (.AuthorizeSecurityGroupIngress fields) =
            (.ok sg, w1) ∧
          sg.IngressRule = rule :: rest ∧
          (createSecurityGroupRule m w d).d.Id = rule.RuleID.String)) ∧
    (∀ (d : RuleData) (q sg : SecurityGroup) (w1 : W), securityGroupOf d = .ok q →
      m.client.GetWithContext w q = (.ok sg, w1) →
      (readSecurityGroupRule m w d).d.Id ≠ "" →
      ((readSecurityGroupRule m w d).d.type = "EGRESS" ∧
        ∃ rule ∈ sg.EgressRule, rule.RuleID.String = (readSecurityGroupRule m w d).d.Id) ∨
      ((readSecurityGroupRule m w d).d.type = "INGRESS" ∧
        ∃ rule ∈ sg.IngressRule, rule.RuleID.String = (readSecurityGroupRule m w d).d.Id)) ∧
    (∀ (d : SecurityGroupData) (sg : SecurityGroup) (w1 : W) (resources : List Resource),
      m.client.GetWithContext w (importSecurityGroup.reference d) = (.ok sg, w1) →
      (importSecurityGroup m w d).ret = .ok resources →
      ∀ r, Resource.exoscale_security_group_rule r ∈ resources →
        (r.type = "EGRESS" ∧ ∃ rule ∈ sg.EgressRule, rule.RuleID.String = r.Id) ∨
        (r.type = "INGRESS" ∧ ∃ rule ∈ sg.IngressRule, rule.RuleID.String = r.Id)) ∧
    (∀ (d : RuleData) (q sg : SecurityGroup) (w1 : W), securityGroupOf d = .ok q →
      m.client.GetWithContext w q = (.ok sg, w1) →
      (d.type = "EGRESS" →
        ((existsSecurityGroupRule m w d).ret = (true, none) ↔
          ∃ rule ∈ sg.EgressRule, rule.RuleID.String = d.Id)) ∧
      (d.type = "INGRESS" →
        ((existsSecurityGroupRule m w d).ret = (true, none) ↔
          ∃ rule ∈ sg.IngressRule, rule.RuleID.String = d.Id))) ∧
    (∀ (d : RuleData) (id : UUID), ParseUUID d.Id = .ok id →
      (d.type = "EGRESS" →
        (deleteSecurityGroupRule m w d).calls =
          [.BooleanRequest (.RevokeSecurityGroupEgress id)]) ∧
      (d.type = "INGRESS" →
        (deleteSecurityGroupRule m w d).calls =
          [.BooleanRequest (.RevokeSecurityGroupIngress id)])) := by
  refine ⟨?_, ?_, ?_, ?_, ?_⟩
  · intro d hup hret
    rcases createSecurityGroupRule.reaches m w d with ⟨w0, sg0, before, cl, gl, heq⟩ | ⟨e, he⟩
    · rw [heq] at hret ⊢
      rcases createSecurityGroupRule.authorize_stored m w0 d sg0 before cl gl hret with
        ⟨-, ht, fields, sg, w1, rule, rest, h1, h2, h3, h4⟩ |
        ⟨hne, ht, fields, sg, w1, rule, rest, h1, h2, h3, h4⟩
      · exact Or.inl ⟨ht, w0, fields, sg, w1, rule, rest, h1, h2, h3, h4⟩
      · refine Or.inr ⟨?_, w0, fields, sg, w1, rule, rest, h1, h2, h3, h4⟩
        rw [ht]
        rcases hup with h | h
        · exact h
        · exact absurd h hne
    · rw [he] at hret
      cases hret
  · intro d q sg w1 href hget hfound
    rw [readSecurityGroupRule_fetched m w w1 d q sg href hget] at hfound ⊢
    dsimp only at hfound ⊢
    cases hres : resolvedRule sg d.Id with
    | none =>
      rw [hres] at hfound
      exact absurd rfl hfound
    | some tr =>
      obtain ⟨t, rule⟩ := tr
      dsimp only
      have hap := applySecurityGroupRule_id_type { d with type := t } sg rule
      rw [hap.2.1, hap.2.2]
      rcases resolvedRule_mem sg d.Id t rule hres with ⟨h1, h2⟩ | ⟨h1, h2⟩
      · exact Or.inl ⟨h1, rule, h2, rfl⟩
      · exact Or.inr ⟨h1, rule, h2, rfl⟩
  · intro d sg w1 resources hget hret r hr
    unfold importSecurityGroup at hret
    simp only [hget, applySecurityGroup] at hret
    cases hid : sg.ID with
    | none =>
      rw [hid] at hret
      simp at hret
    | some gid =>
      rw [hid] at hret
      simp only [importSecurityGroup.rules_eq, Outcome.ok.injEq] at hret
      rw [← hret] at hr
      simp only [List.cons_append, List.nil_append, List.mem_cons, List.mem_append,
        List.mem_map, reduceCtorEq, false_or, Resource.exoscale_security_group_rule.injEq] at hr
      rcases hr with ⟨rule, hmem, hrule⟩ | ⟨rule, hmem, hrule⟩
      · have hap := applySecurityGroupRule_id_type { RuleData.empty with type := "EGRESS" } sg
          rule
        rw [← hrule]
        exact Or.inl ⟨hap.2.2, rule, hmem, hap.2.1.symm⟩
      · have hap := applySecurityGroupRule_id_type { RuleData.empty with type := "INGRESS" } sg
          rule
        rw [← hrule]
        exact Or.inr ⟨hap.2.2, rule, hmem, hap.2.1.symm⟩
  · intro d q sg w1 href hget
    constructor
    · intro ht
      rw [← existsSecurityGroupRule.scan_iff]
      unfold existsSecurityGroupRule
      simp only [href, hget, ht, if_true]
      cases existsSecurityGroupRule.scan d.Id sg.EgressRule <;> simp
    · intro ht
      have hne : ¬ d.type = "EGRESS" := by rw [ht]; decide
      rw [← existsSecurityGroupRule.scan_iff]
      unfold existsSecurityGroupRule
      simp only [href, hget, hne, if_false, ht, if_true]
      cases existsSecurityGroupRule.scan d.Id sg.IngressRule <;> simp
  · intro d id hid
    constructor
    · intro ht
      simp [deleteSecurityGroupRule, hid, ht]
    · intro ht
      have hne : ¬ d.type = "EGRESS" := by rw [ht]; decide
      simp [deleteSecurityGroupRule, hid, ht]

/-- C15. The run of `createSecurityGroupRule` for the group "web" on the
declared type "İNGRESS" (capital I with dot above, U+0130, then "NGRESS"): the
validator of the schema accepts the type, the ingress command is issued and
the run succeeds, and the stored type is "İNGRESS", neither "INGRESS" nor
"EGRESS". The rule sits in the ingress list of the group, and
`existsSecurityGroupRule` on the stored record answers `(false, nil)`;
`deleteSecurityGroupRule` still issues the ingress revoke. -/
theorem stored_type_dotted_capital :
    securityGroupRuleResource.type ruleDotted.type = true ∧
    (createSecurityGroupRule script.meta () ruleDotted).ret = .ok () ∧
    Call.Request (.AuthorizeSecurityGroupIngress authorizeBoth) ∈
      (createSecurityGroupRule script.meta () ruleDotted).calls ∧
    (createSecurityGroupRule script.meta () ruleDotted).d.type = "\u0130NGRESS" ∧
    (createSecurityGroupRule script.meta () ruleDotted).d.type ≠ "INGRESS" ∧
    (createSecurityGroupRule script.meta () ruleDotted).d.type ≠ "EGRESS" ∧
    (createSecurityGroupRule script.meta () ruleDotted).d.Id = rule2.RuleID.String ∧
    rule2 ∈ web.IngressRule ∧
    (existsSecurityGroupRule script.meta ()
      (createSecurityGroupRule script.meta () ruleDotted).d).ret = (false, none) ∧
    (deleteSecurityGroupRule script.meta ()
      (createSecurityGroupRule script.meta () ruleDotted).d).calls =
        [.BooleanRequest (.RevokeSecurityGroupIngress id2)] := by
  decide

end Exoscale
